import Mathlib

/-!
Verification of the pattern-detection engine of a design-tree inspector.

The engine has two pipelines:
* an exact-signature detector (`detectComponents`) working on a flattened
  tree (a node-attribute map plus an adjacency map), and
* a fuzzy similarity grouper (`groupSimilarNodes`) working on a flat list
  of nested nodes, scoring pairs across four weighted dimensions.

Numbers are modelled by the rationals.  JavaScript `Map`s are modelled by
association lists in insertion order (`List (String × α)`, first binding
wins on lookup), and `Set`s of strings by `List String` with membership.
Lookups written with the non-null assertion in the source are modelled in
the `Option` monad: a failed lookup aborts the whole computation, the way
the thrown `TypeError` would.
-/

/-- Scalar attributes of a UI node: the `Node` record of the source minus
its `children` field.  The seven optional string fields are the style and
content properties the engine reads; the open-ended extra style keys of
the source are never consulted by either pipeline and are omitted. -/
structure NodeAttrs where
  id : String
  name : String := ""
  type : String
  x : ℚ := 0
  y : ℚ := 0
  width : ℚ
  height : ℚ
  display : Option String := none
  text : Option String := none
  background : Option String := none
  color : Option String := none
  border : Option String := none
  fontSize : Option String := none
  fontWeight : Option String := none
  lineHeight : Option String := none
  deriving Repr, DecidableEq

instance : Inhabited NodeAttrs :=
  ⟨{ id := "", type := "", width := 0, height := 0 }⟩

/-- A UI node: scalar attributes plus an ordered list of child nodes. -/
inductive Node where
  | node (attrs : NodeAttrs) (children : List Node)
  deriving Repr

/-- The attribute record of a node. -/
def Node.attrs : Node → NodeAttrs
  | .node a _ => a

/-- The ordered children of a node. -/
def Node.children : Node → List Node
  | .node _ c => c

def Node.id (n : Node) : String := n.attrs.id
def Node.type (n : Node) : String := n.attrs.type
def Node.x (n : Node) : ℚ := n.attrs.x
def Node.y (n : Node) : ℚ := n.attrs.y
def Node.width (n : Node) : ℚ := n.attrs.width
def Node.height (n : Node) : ℚ := n.attrs.height
def Node.text (n : Node) : Option String := n.attrs.text
def Node.background (n : Node) : Option String := n.attrs.background

instance : Inhabited Node := ⟨.node default []⟩

/-- Truthiness of an optional string attribute, as JavaScript sees it:
`undefined` and the empty string are falsy. -/
def truthy : Option String → Bool
  | some s => s ≠ ""
  | none => false

/-- Entry of the adjacency map: a node id and its ordered child ids
(the `TreeNode` interface of the source). -/
structure TreeNode where
  id : String
  children : List String
  deriving Repr, DecidableEq

/-- The flattened node-attribute map (JavaScript `Map<string, Node>`). -/
abbrev NodeMap := List (String × NodeAttrs)

/-- The flattened adjacency map (JavaScript `Map<string, TreeNode>`). -/
abbrev TreeData := List (String × TreeNode)

/-- First-binding association-list lookup, the model of `Map.get`. -/
def mapGet (m : List (String × α)) (k : String) : Option α :=
  match m with
  | [] => none
  | (k', v) :: rest => if k' = k then some v else mapGet rest k

/-! ## Exact-signature detector (componentDetection.ts) -/

/-- Base signature of a node: its type and dimensions, the
`type_WxH` string of `createNodeSignature`. -/
def shallowSignature (n : NodeAttrs) : String :=
  n.type ++ "_" ++ toString n.width ++ "x" ++ toString n.height

/-- Lexicographic comparison of char lists by code point; on the ASCII
signature strings this is the default JavaScript `Array.sort()` order. -/
def strLtB : List Char → List Char → Bool
  | [], [] => false
  | [], _ :: _ => true
  | _ :: _, [] => false
  | a :: as, b :: bs =>
    if a.toNat < b.toNat then true
    else if b.toNat < a.toNat then false
    else strLtB as bs

/-- Non-strict lexicographic string comparison. -/
def strLeB (a b : String) : Bool := !(strLtB b.data a.data)

/-- Insert a string into a sorted list, keeping it sorted. -/
def insertSorted (s : String) : List String → List String
  | [] => [s]
  | t :: ts => if strLeB s t then s :: t :: ts else t :: insertSorted s ts

/-- Lexicographic string sort, the model of JavaScript `Array.sort()`
on the ASCII signature strings. -/
def sortStrings : List String → List String
  | [] => []
  | s :: ss => insertSorted s (sortStrings ss)

/-- Shallow signatures of a list of child ids, looked up in the node map.
A missing child makes the whole computation fail, as the non-null
assertion `nodeMap.get(childId)!` does at run time. -/
def childShallowSigs (nm : NodeMap) : List String → Option (List String)
  | [] => some []
  | c :: rest =>
    match mapGet nm c with
    | none => none
    | some n => (childShallowSigs nm rest).map (shallowSignature n :: ·)

/-- Detailed signature of a node, from `createNodeSignature`: the base
signature, and when the node has children the sorted, bar-joined shallow
signatures of its immediate children. -/
def createNodeSignature (nm : NodeMap) (td : TreeData) (nodeId : String) :
    Option String :=
  match mapGet nm nodeId, mapGet td nodeId with
  | some n, some tn =>
    if tn.children = [] then
      some (shallowSignature n)
    else
      (childShallowSigs nm tn.children).map fun sigs =>
        shallowSignature n ++ "_children[" ++
          String.intercalate "|" (sortStrings sigs) ++ "]"
  | _, _ => none

/-- Append a value to the bucket of its key, creating the bucket at the
end on first sight; models the `if (!m.has(k)) m.set(k, []); m.get(k).push(v)`
idiom, which keeps key insertion order and appends members in discovery
order. -/
def bucketAdd (bs : List (String × List α)) (key : String) (v : α) :
    List (String × List α) :=
  match bs with
  | [] => [(key, [v])]
  | (s, vs) :: rest =>
    if s = key then (s, vs ++ [v]) :: rest
    else (s, vs) :: bucketAdd rest key v

/-- Fold of the first phase of `detectComponents`: bucket every key of the
node map by its detailed signature. -/
def buildBucketsGo (nm : NodeMap) (td : TreeData) :
    List (String × NodeAttrs) → List (String × List NodeAttrs) →
    Option (List (String × List NodeAttrs))
  | [], acc => some acc
  | (k, _) :: rest, acc =>
    match createNodeSignature nm td k with
    | none => none
    | some sig =>
      match mapGet nm k with
      | none => none
      | some n => buildBucketsGo nm td rest (bucketAdd acc sig n)

/-- Signature buckets of the node map, in signature discovery order. -/
def buildBuckets (nm : NodeMap) (td : TreeData) :
    Option (List (String × List NodeAttrs)) :=
  buildBucketsGo nm td nm []

/-- Second phase of `detectComponents`: buckets with at least two members
become raw candidate groups labelled consecutively from the given index. -/
def numberBuckets (i : ℕ) :
    List (String × List NodeAttrs) → List (String × List String)
  | [] => []
  | b :: rest =>
    if 1 < b.2.length then
      ("C" ++ toString i, b.2.map (·.id)) :: numberBuckets (i + 1) rest
    else numberBuckets i rest

/-- Raw candidate groups of the detector, before hierarchy suppression. -/
def rawComponents (nm : NodeMap) (td : TreeData) :
    Option (List (String × List String)) :=
  (buildBuckets nm td).map (numberBuckets 1)

/-- Model of the inner scan of the suppression filter: does some entry of
the adjacency map list this node as a child while itself belonging to a
raw candidate group the current group does not contain it in? -/
def hasComponentParentB (td : TreeData)
    (comps : List (String × List String)) (nodeIds : List String)
    (nodeId : String) : Bool :=
  td.any fun p =>
    p.2.children.contains nodeId &&
      comps.any fun oc => oc.2.contains p.1 && !(nodeIds.contains p.1)

/-- A group passes the suppression filter when at least one member has no
component parent in the sense of `hasComponentParentB`. -/
def hasIndependentNodeB (td : TreeData)
    (comps : List (String × List String)) (nodeIds : List String) : Bool :=
  nodeIds.any fun nodeId => !hasComponentParentB td comps nodeIds nodeId

/-- Third phase of `detectComponents`: drop candidate groups with no
independent member. -/
def filteredComponents (td : TreeData)
    (comps : List (String × List String)) : List (String × List String) :=
  comps.filter fun c => hasIndependentNodeB td comps c.2

/-- Fourth phase of `detectComponents`: renumber the surviving groups
sequentially from the given index. -/
def renumberFrom (i : ℕ) :
    List (String × List String) → List (String × List String)
  | [] => []
  | c :: rest => ("C" ++ toString i, c.2) :: renumberFrom (i + 1) rest

/-- The exact-signature detector `detectComponents`: bucket by signature,
keep buckets of two or more, drop groups with no independent member and
renumber the survivors.  The set `componentNodeIds` the source also
fills in is never read by the filter and does not influence the output,
so it is not modelled.  The result is `none` exactly when one of the
non-null map lookups of the source would throw. -/
def detectComponents (nm : NodeMap) (td : TreeData) :
    Option (List (String × List String)) :=
  (rawComponents nm td).map fun comps =>
    renumberFrom 1 (filteredComponents td comps)

/-! ## Fuzzy similarity grouper (groupingComponent.ts) -/

/-- The constants imported from `groupingComponent.config`. -/
structure GroupingConfig where
  SIMILARITY_THRESHOLD : ℚ
  STRUCTURE_WEIGHT : ℚ
  STYLE_WEIGHT : ℚ
  LAYOUT_WEIGHT : ℚ
  CONTENT_WEIGHT : ℚ
  CHILDLESS_DIV_THRESHOLD_INCREASE : ℚ
  deriving Repr, DecidableEq

/-- Modelled from the spec: the configuration module
`groupingComponent.config` is absent from the sources.  The four weights
and the base threshold are the fixed constants the spec and the
repository README state; the childless-div threshold increment is a
fixed positive value whose magnitude the spec leaves unspecified. -/
def specConfig : GroupingConfig :=
  { SIMILARITY_THRESHOLD := 0.75
    STRUCTURE_WEIGHT := 0.6
    STYLE_WEIGHT := 0.1
    LAYOUT_WEIGHT := 0.2
    CONTENT_WEIGHT := 0.1
    CHILDLESS_DIV_THRESHOLD_INCREASE := 0.1 }

/-- Per-child descriptor inside a structural signature. -/
structure ChildTypeInfo where
  type : String
  hasChildren : Bool
  childCount : ℕ
  deriving Repr, DecidableEq

/-- Structural signature of a node. -/
structure StructureSignature where
  rootType : String
  depth : ℕ
  childTypes : List ChildTypeInfo
  childCount : ℕ
  deriving Repr, DecidableEq

/-- Common style subset of a group. -/
structure StyleProperties where
  background : Option String := none
  color : Option String := none
  border : Option String := none
  display : Option String := none
  deriving Repr, DecidableEq

/-- Width and height ranges of a group. -/
structure DimensionRange where
  minWidth : ℚ
  maxWidth : ℚ
  minHeight : ℚ
  maxHeight : ℚ
  deriving Repr, DecidableEq

/-- Positional mean and variance of a group. -/
structure PositionPattern where
  averageX : ℚ
  averageY : ℚ
  xVariance : ℚ
  yVariance : ℚ
  deriving Repr, DecidableEq

/-- Group-level features; the field `structureSig` renders the source
field named `structure`, which is a reserved word here. -/
structure Features where
  structureSig : StructureSignature
  styleProperties : StyleProperties
  dimensions : DimensionRange
  positionPattern : PositionPattern
  deriving Repr

/-- A named sub-variant of a group. -/
structure Variation where
  type : String
  description : String
  examples : List Node
  deriving Repr

/-- Output record of the similarity grouper. -/
structure NodeGroup where
  id : String
  pattern : String
  nodes : List Node
  commonFeatures : Features
  variations : List Variation
  deriving Repr

/-- Similarity threshold for a node (`getSimilarityThreshold`): childless
div elements get a raised threshold. -/
def getSimilarityThreshold (cfg : GroupingConfig) (n : Node) : ℚ :=
  if n.type = "Div" && n.children.isEmpty then
    cfg.SIMILARITY_THRESHOLD + cfg.CHILDLESS_DIV_THRESHOLD_INCREASE
  else cfg.SIMILARITY_THRESHOLD

mutual
/-- Depth of a node tree (`calculateDepth`): a leaf has depth 1 (the
fold over no child depths is 0), otherwise one more than the largest
child depth. -/
def calculateDepth : Node → ℕ
  | .node _ cs => 1 + (childDepths cs).foldl max 0
/-- Depths of the members of a child list. -/
def childDepths : List Node → List ℕ
  | [] => []
  | c :: cs => calculateDepth c :: childDepths cs
end

/-- Structural signature of a node (`getStructureSignature`). -/
def getStructureSignature (n : Node) : StructureSignature :=
  { rootType := n.type
    depth := calculateDepth n
    childTypes := n.children.map fun c =>
      { type := c.type
        hasChildren := decide (0 < c.children.length)
        childCount := c.children.length }
    childCount := n.children.length }

/-- Score of one child pair inside `compareChildTypes`: 0.5 for matching
type, a further 0.3 for matching has-children flags and a further 0.2 for
matching child counts. -/
def pairScore (a b : ChildTypeInfo) : ℚ :=
  if a.type = b.type then
    0.5 + (if a.hasChildren = b.hasChildren then
             0.3 + (if a.childCount = b.childCount then 0.2 else 0)
           else 0)
  else 0

/-- Inner scan of `compareChildTypes`: over the indexed candidates, skip
used indices and keep the first index whose score strictly beats the best
so far (which starts at 0, so zero-score pairs are never matched). -/
def findBestGo (a : ChildTypeInfo) (used : List ℕ) :
    List (ℕ × ChildTypeInfo) → Option ℕ → ℚ → Option ℕ × ℚ
  | [], bi, bs => (bi, bs)
  | (j, b) :: rest, bi, bs =>
    if used.contains j then findBestGo a used rest bi bs
    else
      if bs < pairScore a b then findBestGo a used rest (some j) (pairScore a b)
      else findBestGo a used rest bi bs

/-- Best unused candidate for one child, with its score. -/
def findBestMatch (a : ChildTypeInfo) (c2 : List ChildTypeInfo)
    (used : List ℕ) : Option ℕ × ℚ :=
  findBestGo a used c2.enum none 0

/-- Outer loop of `compareChildTypes`: greedily match every child of the
first list to its best unused counterpart, accumulating the match score
and marking matched indices as used. -/
def greedyGo (c2 : List ChildTypeInfo) :
    List ChildTypeInfo → List ℕ → ℚ → ℚ
  | [], _, acc => acc
  | a :: rest, used, acc =>
    match findBestMatch a c2 used with
    | (some j, s) => greedyGo c2 rest (j :: used) (acc + s)
    | (none, _) => greedyGo c2 rest used acc

/-- Child-type comparison (`compareChildTypes`): greedy best matching
normalized by the larger list length, with a penalty of up to one half
for a list-length mismatch. -/
def compareChildTypes (c1 c2 : List ChildTypeInfo) : ℚ :=
  if c1 = [] ∧ c2 = [] then 1
  else if c1 = [] ∨ c2 = [] then 0.3
  else
    let maxLength : ℚ := ((max c1.length c2.length : ℕ) : ℚ)
    let minLength : ℚ := ((min c1.length c2.length : ℕ) : ℚ)
    let matchScore := greedyGo c2 c1 [] 0
    (matchScore / maxLength) * (1 - ((maxLength - minLength) / maxLength) * 0.5)

/-- Hierarchy comparison (`compareHierarchy`): half a point for equal
root types and up to half a point for child-count closeness. -/
def compareHierarchy (s1 s2 : StructureSignature) : ℚ :=
  (if s1.rootType = s2.rootType then 0.5 else 0) +
    (if s1.childCount = s2.childCount then 0.5
     else
       0.5 * (1 - |(s1.childCount : ℚ) - (s2.childCount : ℚ)| /
         ((max s1.childCount s2.childCount : ℕ) : ℚ)))

/-- Does a node have a direct Image-typed child (`hasIcon`)? -/
def hasIcon (n : Node) : Bool :=
  n.children.any fun c => c.type = "Image"

/-- Is the structural difference likely just an icon
(`isLikelyIconDifference`)? -/
def isLikelyIconDifference (n1 n2 : Node) : Bool :=
  hasIcon n1 != hasIcon n2

/-- Structural similarity for buttons
(`calculateButtonStructuralSimilarity`). -/
def calculateButtonStructuralSimilarity (s1 s2 : StructureSignature)
    (n1 n2 : Node) : ℚ :=
  let childCountDiff : ℚ := |(s1.childCount : ℚ) - (s2.childCount : ℚ)|
  if s1.childCount ≤ 1 ∧ s2.childCount ≤ 1 then 0.9
  else if childCountDiff = 1 then
    (if isLikelyIconDifference n1 n2 then 0.8 else 0.6)
  else if s1.childCount ≤ 2 ∧ s2.childCount ≤ 2 then 0.5
  else
    let maxCount := max s1.childCount s2.childCount
    if maxCount = 0 then 1
    else max 0 (1 - childCountDiff / (maxCount : ℚ))

/-- Structural similarity for divs
(`calculateDivStructuralSimilarity`): zero on depth mismatch, otherwise
the average of child-type and hierarchy comparison. -/
def calculateDivStructuralSimilarity (s1 s2 : StructureSignature) : ℚ :=
  if s1.depth ≠ s2.depth then 0
  else (compareChildTypes s1.childTypes s2.childTypes +
          compareHierarchy s1 s2) / 2

/-- Default structural similarity
(`calculateDefaultStructuralSimilarity`), same shape as for divs. -/
def calculateDefaultStructuralSimilarity (s1 s2 : StructureSignature) : ℚ :=
  if s1.depth ≠ s2.depth then 0
  else (compareChildTypes s1.childTypes s2.childTypes +
          compareHierarchy s1 s2) / 2

/-- Structural similarity for inputs
(`calculateInputStructuralSimilarity`). -/
def calculateInputStructuralSimilarity (s1 s2 : StructureSignature) : ℚ :=
  if s1.childCount = 0 ∧ s2.childCount = 0 then 1
  else if s1.childCount ≤ 1 ∧ s2.childCount ≤ 1 then 0.8
  else calculateDefaultStructuralSimilarity s1 s2

/-- Type dispatch of the structural term
(`calculateComponentSpecificSimilarity`). -/
def calculateComponentSpecificSimilarity (s1 s2 : StructureSignature)
    (n1 n2 : Node) : ℚ :=
  if s1.rootType = "Button" then
    calculateButtonStructuralSimilarity s1 s2 n1 n2
  else if s1.rootType = "Div" then calculateDivStructuralSimilarity s1 s2
  else if s1.rootType = "Input" then calculateInputStructuralSimilarity s1 s2
  else calculateDefaultStructuralSimilarity s1 s2

/-- Structural similarity (`calculateStructuralSimilarity`): zero when
root types differ, otherwise the type-specific term. -/
def calculateStructuralSimilarity (n1 n2 : Node) : ℚ :=
  let s1 := getStructureSignature n1
  let s2 := getStructureSignature n2
  if s1.rootType ≠ s2.rootType then 0
  else calculateComponentSpecificSimilarity s1 s2 n1 n2

/-- Heuristic near-equality of two style values (`bothExistAndSimilar`):
both truthy, both containing a hash sign, and of equal length. -/
def bothExistAndSimilar (v1 v2 : Option String) : Bool :=
  match v1, v2 with
  | some s1, some s2 =>
    if s1 = "" || s2 = "" then false
    else if s1.contains '#' && s2.contains '#' then s1.length == s2.length
    else false
  | _, _ => false

/-- Score of one style property inside `calculateStyleSimilarity`. -/
def stylePropScore (v1 v2 : Option String) : ℚ :=
  if v1 = v2 then 1
  else if bothExistAndSimilar v1 v2 then 0.5
  else 0

/-- The seven style properties the style term checks. -/
def styleChecklist : List (NodeAttrs → Option String) :=
  [(·.background), (·.color), (·.border), (·.display),
   (·.fontSize), (·.fontWeight), (·.lineHeight)]

/-- Style similarity (`calculateStyleSimilarity`): per-property scores
averaged over the checklist of seven properties. -/
def calculateStyleSimilarity (n1 n2 : Node) : ℚ :=
  (styleChecklist.foldl
    (fun acc f => acc + stylePropScore (f n1.attrs) (f n2.attrs)) 0) / 7

/-- Similarity of two scalar dimensions
(`calculateDimensionSimilarity`): within a 20 percent tolerance of the
average they count as equal, beyond it the score falls off gradually. -/
def calculateDimensionSimilarity (d1 d2 : ℚ) : ℚ :=
  let diff := |d1 - d2|
  let avg := (d1 + d2) / 2
  let tol := avg * 0.2
  if diff ≤ tol then 1
  else max 0 (1 - (diff - tol) / avg)

/-- Layout similarity (`calculateLayoutSimilarity`): average of the
width and height dimension similarities. -/
def calculateLayoutSimilarity (n1 n2 : Node) : ℚ :=
  (calculateDimensionSimilarity n1.width n2.width +
    calculateDimensionSimilarity n1.height n2.height) / 2

/-- Text pattern similarity (`calculateTextPatternSimilarity`). -/
def calculateTextPatternSimilarity (t1 t2 : String) : ℚ :=
  if t1 = t2 then 1
  else
    let lengthSim : ℚ :=
      1 - |(t1.length : ℚ) - (t2.length : ℚ)| /
        ((max t1.length t2.length : ℕ) : ℚ)
    let numberSim : ℚ :=
      if (t1.any Char.isDigit) = (t2.any Char.isDigit) then 1 else 0
    (lengthSim + numberSim) / 2

/-- Content similarity (`calculateContentSimilarity`): 1 when neither
node has text, 0.5 when exactly one has, otherwise the text pattern
similarity. -/
def calculateContentSimilarity (n1 n2 : Node) : ℚ :=
  if truthy n1.text = false ∧ truthy n2.text = false then 1
  else if truthy n1.text = false ∨ truthy n2.text = false then 0.5
  else calculateTextPatternSimilarity (n1.text.getD "") (n2.text.getD "")

/-- Overall similarity (`calculateSimilarity`): the weighted sum of the
four sub-scores. -/
def calculateSimilarity (cfg : GroupingConfig) (n1 n2 : Node) : ℚ :=
  calculateStructuralSimilarity n1 n2 * cfg.STRUCTURE_WEIGHT +
    calculateStyleSimilarity n1 n2 * cfg.STYLE_WEIGHT +
    calculateLayoutSimilarity n1 n2 * cfg.LAYOUT_WEIGHT +
    calculateContentSimilarity n1 n2 * cfg.CONTENT_WEIGHT

/-- Candidates similar to a reference node (`findSimilarNodes`): the
reference itself followed by every unprocessed candidate with a distinct
id whose similarity to the reference reaches the larger of the two
adaptive thresholds. -/
def findSimilarNodes (cfg : GroupingConfig) (ref : Node)
    (allNodes : List Node) (processed : List String) : List Node :=
  ref :: allNodes.filter fun c =>
    !(processed.contains c.id) && c.id != ref.id &&
      decide (max (getSimilarityThreshold cfg ref)
          (getSimilarityThreshold cfg c) ≤ calculateSimilarity cfg ref c)

/-- Hex-to-semantic-name table for button backgrounds
(`getButtonVariantType`). -/
def getButtonVariantType (bgColor : String) : String :=
  if bgColor = "#007bff" then "Primary"
  else if bgColor = "#6c757d" then "Secondary"
  else if bgColor = "transparent" then "Outline"
  else if bgColor = "#dc3545" then "Danger"
  else if bgColor = "#28a745" then "Success"
  else if bgColor = "#ffc107" then "Warning"
  else "Custom"

/-- Does a node have a badge-like child (`hasBadge`): a direct child whose
width and height are each below 30 percent of the parent dimensions and
which has a truthy background. -/
def hasBadge (n : Node) : Bool :=
  n.children.any fun c =>
    decide (c.width < n.width * 0.3) && decide (c.height < n.height * 0.3) &&
      truthy c.background

/-- Card heuristic (`hasCardLikeStructure`): every member is a div with
children and a truthy background. -/
def hasCardLikeStructure (nodes : List Node) : Bool :=
  nodes.all fun n =>
    decide (n.type = "Div") && decide (0 < n.children.length) &&
      truthy n.background

/-- Pattern label of a group (`identifyPattern`), read off the first
member. -/
def identifyPattern (nodes : List Node) : String :=
  if hasCardLikeStructure nodes then "Card"
  else if nodes.headI.type = "Button" then "Button"
  else if nodes.headI.type = "Input" then "Input Field"
  else if nodes.headI.type = "Image" then "Image"
  else "Custom Component"

/-- A truthy style value, or nothing; models the `.filter((v) => v)`
step of `extractCommonStyles`. -/
def truthyVal : Option String → Option String
  | some s => if s = "" then none else some s
  | none => none

/-- Truthy values of one style property over a list of nodes. -/
def styleValues (nodes : List Node) (f : NodeAttrs → Option String) :
    List String :=
  (nodes.map fun n => f n.attrs).filterMap truthyVal

/-- The common value of a nonempty list all of whose members equal its
first element, and nothing otherwise. -/
def commonValue : List String → Option String
  | [] => none
  | v :: rest => if (v :: rest).all (· = v) then some v else none

/-- Common style subset of a group (`extractCommonStyles`): for each of
background, color, border and display, the shared truthy value if the
truthy values present agree. -/
def extractCommonStyles (nodes : List Node) : StyleProperties :=
  { background := commonValue (styleValues nodes (·.background))
    color := commonValue (styleValues nodes (·.color))
    border := commonValue (styleValues nodes (·.border))
    display := commonValue (styleValues nodes (·.display)) }

/-- Least element of a list of rationals (`Math.min(...)` over a
nonempty spread). -/
def minListQ : List ℚ → ℚ
  | [] => 0
  | x :: xs => xs.foldl min x

/-- Greatest element of a list of rationals. -/
def maxListQ : List ℚ → ℚ
  | [] => 0
  | x :: xs => xs.foldl max x

/-- Sum of a list of rationals. -/
def sumQ (l : List ℚ) : ℚ := l.foldl (· + ·) 0

/-- Arithmetic mean of a list of rationals. -/
def meanQ (l : List ℚ) : ℚ := sumQ l / (l.length : ℚ)

/-- Population variance (`calculateVariance`). -/
def calculateVariance (l : List ℚ) : ℚ :=
  sumQ (l.map fun n => (n - meanQ l) ^ 2) / (l.length : ℚ)

/-- Group-level features (`extractCommonFeatures`): the structural
signature of the first member, the common style subset, the dimension
ranges and the positional mean and variance. -/
def extractCommonFeatures (nodes : List Node) : Features :=
  { structureSig := getStructureSignature nodes.headI
    styleProperties := extractCommonStyles nodes
    dimensions :=
      { minWidth := minListQ (nodes.map Node.width)
        maxWidth := maxListQ (nodes.map Node.width)
        minHeight := minListQ (nodes.map Node.height)
        maxHeight := maxListQ (nodes.map Node.height) }
    positionPattern :=
      { averageX := meanQ (nodes.map Node.x)
        averageY := meanQ (nodes.map Node.y)
        xVariance := calculateVariance (nodes.map Node.x)
        yVariance := calculateVariance (nodes.map Node.y) } }

/-- Background key of a button for style-variant bucketing: the truthy
background value, `default` otherwise. -/
def bgKey (n : Node) : String :=
  match n.background with
  | some s => if s = "" then "default" else s
  | none => "default"

/-- Button variations (`identifyButtonVariations`): one variation per
background bucket when several backgrounds occur, plus an icon-presence
split when both kinds occur. -/
def identifyButtonVariations (nodes : List Node) : List Variation :=
  let styleGroups :=
    nodes.foldl (fun acc n => bucketAdd acc (bgKey n) n)
      ([] : List (String × List Node))
  let iconGroups :=
    nodes.foldl
      (fun acc n =>
        bucketAdd acc (if hasIcon n then "with_icon" else "without_icon") n)
      ([] : List (String × List Node))
  let styleVars :=
    if 1 < styleGroups.length then
      styleGroups.map fun g =>
        { type := getButtonVariantType g.1
          description := getButtonVariantType g.1 ++ " style buttons (" ++
            toString g.2.length ++ " instances)"
          examples := g.2 }
    else []
  let iconVars :=
    match mapGet iconGroups "with_icon", mapGet iconGroups "without_icon" with
    | some wi, some wo =>
      [{ type := "With Icon"
         description := "Buttons with icon (" ++ toString wi.length ++
           " instances)"
         examples := wi },
       { type := "Without Icon"
         description := "Buttons without icon (" ++ toString wo.length ++
           " instances)"
         examples := wo }]
    | _, _ => []
  styleVars ++ iconVars

/-- Variations of a group (`identifyVariations`): the button analysis for
button groups, otherwise a badge-presence split when both kinds occur. -/
def identifyVariations (nodes : List Node) : List Variation :=
  if nodes.headI.type = "Button" then identifyButtonVariations nodes
  else
    let withBadge := nodes.filter hasBadge
    let withoutBadge := nodes.filter fun n => !hasBadge n
    if 0 < withBadge.length ∧ 0 < withoutBadge.length then
      [{ type := "With Badge"
         description := "Cards with additional badge component (" ++
           toString withBadge.length ++ " instances)"
         examples := withBadge },
       { type := "Without Badge"
         description := "Basic cards without badge (" ++
           toString withoutBadge.length ++ " instances)"
         examples := withoutBadge }]
    else []

/-- Assemble a group record (`createNodeGroup`).  The id argument stands
for the string `generateGroupId` produces from the clock and the random
number generator at that moment. -/
def createNodeGroup (gid : String) (similarNodes : List Node) : NodeGroup :=
  { id := gid
    pattern := identifyPattern similarNodes
    nodes := similarNodes
    commonFeatures := extractCommonFeatures similarNodes
    variations := identifyVariations similarNodes }

/-- Loop of `groupSimilarNodes` over the node list.  The entropy of
`generateGroupId` is abstracted into `gen`: the k-th group created in
the run receives the id `gen k`. -/
def groupLoop (cfg : GroupingConfig) (gen : ℕ → String)
    (allNodes : List Node) :
    List Node → List String → ℕ → List NodeGroup
  | [], _, _ => []
  | n :: rest, processed, k =>
    if processed.contains n.id then groupLoop cfg gen allNodes rest processed k
    else
      let sim := findSimilarNodes cfg n allNodes processed
      if 2 ≤ sim.length then
        createNodeGroup (gen k) sim ::
          groupLoop cfg gen allNodes rest (processed ++ sim.map Node.id) (k + 1)
      else groupLoop cfg gen allNodes rest processed k

/-- The similarity grouper `groupSimilarNodes`: first-fit greedy
clustering of the flat node list above the adaptive threshold, skipping
nodes already grouped and emitting only groups of at least two. -/
def groupSimilarNodes (cfg : GroupingConfig) (gen : ℕ → String)
    (nodes : List Node) : List NodeGroup :=
  groupLoop cfg gen nodes nodes [] 0

/-! ## Helper notions used in claim statements -/

/-- Parents of a node id in the adjacency map: keys of entries whose
child list contains the id. -/
def parentsOf (td : TreeData) (m : String) : List String :=
  (td.filter fun e => e.2.children.contains m).map (·.1)

/-- Ancestors of a node id reachable within the given fuel: parents,
parents of parents, and so on.  On acyclic adjacency data, fuel equal to
the number of entries reaches every ancestor. -/
def ancestorsUpTo (td : TreeData) : ℕ → String → List String
  | 0, _ => []
  | fuel + 1, m =>
    let ps := parentsOf td m
    ps ++ ps.foldr (fun p acc => ancestorsUpTo td fuel p ++ acc) []

/-- Is this id a member of a raw candidate group other than the given
one?  Used to state the ancestor-based reading of hierarchy
suppression. -/
def memberOfOtherGroup (raw : List (String × List String))
    (g : List String) (p : String) : Bool :=
  raw.any fun g2 => decide (g2.2 ≠ g) && g2.2.contains p

/-- Is this member covered in the sense of the ancestor-based reading:
does some ancestor of it belong to a different raw candidate group? -/
def coveredByAncestor (td : TreeData) (raw : List (String × List String))
    (g : List String) (m : String) : Bool :=
  (ancestorsUpTo td td.length m).any fun p => memberOfOtherGroup raw g p

/-- A group record with its run-dependent id blanked out; all remaining
fields are pure functions of the input node list. -/
def eraseGroupId (g : NodeGroup) : NodeGroup := { g with id := "" }

/-! ## Concrete inputs used by counterexamples and witnesses -/

/-- Attribute record with the fields the detector reads. -/
def mkA (id ty : String) (w h : ℚ) : NodeAttrs :=
  { id := id, type := ty, width := w, height := h }

/-- Node map of the three-level example: two identical grandparents
(A1, A2), two intermediate containers of differing shape (B1, B2), two
identical grandchild buttons (C1a, C2a) and one extra image (D). -/
def nmEx1 : NodeMap :=
  [("A1", mkA "A1" "Div" 300 300), ("A2", mkA "A2" "Div" 300 300),
   ("B1", mkA "B1" "Div" 200 200), ("B2", mkA "B2" "Div" 200 200),
   ("C1a", mkA "C1a" "Button" 50 50), ("C2a", mkA "C2a" "Button" 50 50),
   ("D", mkA "D" "Image" 10 10)]

/-- Adjacency of the three-level example: A1 over B1 over C1a, and A2
over B2 over C2a and D. -/
def tdEx1 : TreeData :=
  [("A1", ⟨"A1", ["B1"]⟩), ("A2", ⟨"A2", ["B2"]⟩),
   ("B1", ⟨"B1", ["C1a"]⟩), ("B2", ⟨"B2", ["C2a", "D"]⟩),
   ("C1a", ⟨"C1a", []⟩), ("C2a", ⟨"C2a", []⟩), ("D", ⟨"D", []⟩)]

/-- A small leaf div. -/
def leafEx : Node := .node (mkA "L" "Div" 5 5) []

/-- Outer div whose children have child counts 1 and 2. -/
def divEx1 : Node :=
  .node (mkA "n1" "Div" 100 100)
    [.node (mkA "a1" "Div" 10 10) [leafEx],
     .node (mkA "a2" "Div" 10 10) [leafEx, leafEx]]

/-- Outer div whose children have child counts 2 and 3; same depth and
dimensions as `divEx1`, but the greedy child matching scores the two
orders differently. -/
def divEx2 : Node :=
  .node (mkA "n2" "Div" 100 100)
    [.node (mkA "b1" "Div" 10 10) [leafEx, leafEx],
     .node (mkA "b2" "Div" 10 10) [leafEx, leafEx, leafEx]]

/-- A div with a background. -/
def redEx : Node := .node { mkA "r1" "Div" 10 10 with background := some "red" } []

/-- A div with no background at all. -/
def bareEx : Node := .node (mkA "r2" "Div" 10 10) []

/-- First of two identical childless buttons. -/
def btnEx1 : Node := .node (mkA "b1" "Button" 100 30) []

/-- Second of two identical childless buttons. -/
def btnEx2 : Node := .node (mkA "b2" "Button" 100 30) []

/-! ## General lemmas about the detector pipeline -/

/-- A successful association-list lookup returns a binding of the list. -/
theorem mapGet_mem {α} {m : List (String × α)} {k : String} {v : α}
    (h : mapGet m k = some v) : (k, v) ∈ m := by
  induction m with
  | nil => simp [mapGet] at h
  | cons e rest ih =>
    obtain ⟨k1, v1⟩ := e
    by_cases hk : k1 = k
    · subst hk
      simp [mapGet] at h
      simp [h]
    · simp [mapGet, hk] at h
      exact List.mem_cons_of_mem _ (ih h)

/-- Renumbering does not change the member lists nor their order. -/
theorem renumberFrom_map_snd (i : ℕ) (cs : List (String × List String)) :
    (renumberFrom i cs).map Prod.snd = cs.map Prod.snd := by
  induction cs generalizing i with
  | nil => rfl
  | cons c rest ih => simp [renumberFrom, ih]

/-- A missing child id makes the child-signature computation fail. -/
theorem childShallowSigs_none {nm : NodeMap} {c : String}
    {cids : List String} (hc : c ∈ cids) (h : mapGet nm c = none) :
    childShallowSigs nm cids = none := by
  induction cids with
  | nil => cases hc
  | cons d rest ih =>
    rcases List.mem_cons.mp hc with hd | hd
    · subst hd
      simp [childShallowSigs, h]
    · cases hnd : mapGet nm d with
      | none => simp [childShallowSigs, hnd]
      | some nd => simp [childShallowSigs, hnd, ih hd]

/-- A node whose adjacency entry lists a child absent from the node map
has no computable signature. -/
theorem createNodeSignature_none {nm : NodeMap} {td : TreeData}
    {pid : String} {n : NodeAttrs} {tn : TreeNode} {c : String}
    (h1 : mapGet nm pid = some n) (h2 : mapGet td pid = some tn)
    (hc : c ∈ tn.children) (h4 : mapGet nm c = none) :
    createNodeSignature nm td pid = none := by
  unfold createNodeSignature
  rw [h1, h2]
  dsimp only
  rw [if_neg (List.ne_nil_of_mem hc), childShallowSigs_none hc h4]
  rfl

/-- The bucket fold fails as soon as some key of the processed list has
no computable signature. -/
theorem buildBucketsGo_none {nm : NodeMap} {td : TreeData}
    {l : List (String × NodeAttrs)} {k : String} {v : NodeAttrs}
    (hk : (k, v) ∈ l) (h : createNodeSignature nm td k = none) :
    ∀ acc, buildBucketsGo nm td l acc = none := by
  induction l with
  | nil => cases hk
  | cons e rest ih =>
    intro acc
    obtain ⟨k1, v1⟩ := e
    rcases List.mem_cons.mp hk with he | he
    · obtain ⟨hk1, -⟩ := Prod.mk.injEq .. ▸ he
      cases hk1
      simp only [buildBucketsGo, h]
    · simp only [buildBucketsGo]
      cases hsig : createNodeSignature nm td k1 with
      | none => rfl
      | some sig =>
        cases hget : mapGet nm k1 with
        | none => rfl
        | some n1 => exact ih he _

/-! ## C1: hierarchy suppression -/

/-- C1: the claim reads hierarchy suppression as quantifying over all
ancestors, but the source scans only immediate parents.  In this input
the grandchildren group (C1a, C2a) is kept although every member has a
grandparent inside the other raw group (A1, A2): the intermediate
containers B1 and B2 are in no group, so no member has a grouped
parent.  Under the ancestor-based reading of the claim the group would
have to be dropped, so the claim is false of the code. -/
theorem C1_counterexample :
    detectComponents nmEx1 tdEx1 =
      some [("C1", ["A1", "A2"]), ("C2", ["C1a", "C2a"])] ∧
    rawComponents nmEx1 tdEx1 =
      some [("C1", ["A1", "A2"]), ("C2", ["C1a", "C2a"])] ∧
    (["C1a", "C2a"].all fun m =>
      coveredByAncestor tdEx1 [("C1", ["A1", "A2"]), ("C2", ["C1a", "C2a"])]
        ["C1a", "C2a"] m) = true :=
  ⟨by decide, by decide, by decide⟩

/-- C1 (amended): a raw candidate group is kept exactly when at least one
member has no immediate parent that belongs to a raw candidate group not
containing the parent in the current group; the surviving groups keep
their member lists and order. -/
theorem C1_amended (nm : NodeMap) (td : TreeData)
    (out raw : List (String × List String))
    (hout : detectComponents nm td = some out)
    (hraw : rawComponents nm td = some raw) :
    out.map Prod.snd =
      ((raw.filter fun g => g.2.any fun m =>
          !(td.any fun p => p.2.children.contains m &&
              raw.any fun g2 => g2.2.contains p.1 && !(g.2.contains p.1)))).map
        Prod.snd := by
  unfold detectComponents at hout
  rw [hraw] at hout
  simp only [Option.map_some', Option.some.injEq] at hout
  subst hout
  rw [renumberFrom_map_snd]
  rfl

/-- Concrete instantiation of the amended C1 statement on the
three-level example. -/
theorem C1_amended_witness :
    ([("C1", ["A1", "A2"]), ("C2", ["C1a", "C2a"])] :
        List (String × List String)).map Prod.snd =
      ((([("C1", ["A1", "A2"]), ("C2", ["C1a", "C2a"])] :
          List (String × List String)).filter fun g => g.2.any fun m =>
            !(tdEx1.any fun p => p.2.children.contains m &&
                ([("C1", ["A1", "A2"]), ("C2", ["C1a", "C2a"])] :
                  List (String × List String)).any fun g2 =>
                    g2.2.contains p.1 && !(g.2.contains p.1)))).map
        Prod.snd :=
  C1_amended nmEx1 tdEx1 _ _ (by decide) (by decide)

/-! ## C4: common style extraction -/

/-- C4: the source keeps a style property whenever the truthy values
present agree, even when some member lacks the property entirely.  Here
the second node has no background at all, yet the common record carries
the background of the first. -/
theorem C4_counterexample :
    (extractCommonStyles [redEx, bareEx]).background = some "red" ∧
    bareEx.background = none := by
  exact ⟨by decide, by decide⟩

/-- The common value of a list is the value all its members share, when
the list is nonempty. -/
theorem commonValue_eq_some (l : List String) (v : String) :
    commonValue l = some v ↔ l ≠ [] ∧ ∀ x ∈ l, x = v := by
  cases l with
  | nil => simp [commonValue]
  | cons a as =>
    have hdec : (((a :: as).all fun x => x = a) = true) ↔
        ∀ x ∈ a :: as, x = a := by
      simp [List.all_eq_true]
    by_cases h : ∀ x ∈ a :: as, x = a
    · simp only [commonValue, if_pos (hdec.mpr h), Option.some.injEq]
      constructor
      · rintro rfl
        exact ⟨List.cons_ne_nil a as, h⟩
      · rintro ⟨hne, hall⟩
        exact hall a (List.mem_cons_self a as)
    · simp only [commonValue, if_neg (fun hc => h (hdec.mp hc))]
      refine ⟨fun hc => absurd hc (by simp), ?_⟩
      rintro ⟨hne, hall⟩
      exact absurd (fun x hx => (hall x hx).trans
        (hall a (List.mem_cons_self a as)).symm) h

/-- C4 (amended): each of the four style keys is present in the common
record with value v exactly when some member carries a truthy value for
the key and every truthy value carried equals v; members lacking the key
are ignored rather than vetoing it. -/
theorem C4_amended (nodes : List Node) (v : String) :
    ((extractCommonStyles nodes).background = some v ↔
      styleValues nodes (·.background) ≠ [] ∧
        ∀ x ∈ styleValues nodes (·.background), x = v) ∧
    ((extractCommonStyles nodes).color = some v ↔
      styleValues nodes (·.color) ≠ [] ∧
        ∀ x ∈ styleValues nodes (·.color), x = v) ∧
    ((extractCommonStyles nodes).border = some v ↔
      styleValues nodes (·.border) ≠ [] ∧
        ∀ x ∈ styleValues nodes (·.border), x = v) ∧
    ((extractCommonStyles nodes).display = some v ↔
      styleValues nodes (·.display) ≠ [] ∧
        ∀ x ∈ styleValues nodes (·.display), x = v) :=
  ⟨commonValue_eq_some _ v, commonValue_eq_some _ v,
   commonValue_eq_some _ v, commonValue_eq_some _ v⟩

/-- Concrete instantiation of the amended C4 statement: a background
carried by only one of the two members is still reported as common. -/
theorem C4_amended_witness :
    (extractCommonStyles [redEx, bareEx]).background = some "red" :=
  (C4_amended [redEx, bareEx] "red").1.mpr ⟨by decide, by decide⟩

/-! ## C5: dangling child references -/

/-- C5: an id listed as a child in the adjacency map but absent from the
node map does not make the detector skip the node: the signature lookup
fails and the whole call fails (models the thrown TypeError), so the
claim that `detectComponents` returns normally is false of the code. -/
theorem C5_counterexample :
    detectComponents [("a", mkA "a" "Div" 10 10)] [("a", ⟨"a", ["b"]⟩)] =
      none ∧
    mapGet ([("a", mkA "a" "Div" 10 10)] : NodeMap) "b" = none ∧
    (⟨"a", ["b"]⟩ : TreeNode).children.contains "b" = true :=
  ⟨by decide, by decide, by decide⟩

/-- C5 (amended): whenever some key of the node map has an adjacency
entry listing a child id absent from the node map, `detectComponents`
fails (the source throws on the non-null child lookup); the engine never
skips a missing node, only the rendering layer does. -/
theorem C5_amended (nm : NodeMap) (td : TreeData) (pid : String)
    (n : NodeAttrs) (tn : TreeNode) (c : String)
    (h1 : mapGet nm pid = some n) (h2 : mapGet td pid = some tn)
    (hc : c ∈ tn.children) (h4 : mapGet nm c = none) :
    detectComponents nm td = none := by
  have hmem := mapGet_mem h1
  have hsig := createNodeSignature_none h1 h2 hc h4
  unfold detectComponents rawComponents buildBuckets
  rw [buildBucketsGo_none hmem hsig]
  rfl

/-- Concrete instantiation of the amended C5 statement. -/
theorem C5_amended_witness :
    detectComponents [("a", mkA "a" "Div" 10 10)] [("a", ⟨"a", ["b"]⟩)] =
      none :=
  C5_amended _ _ "a" (mkA "a" "Div" 10 10) ⟨"a", ["b"]⟩ "b"
    (by decide) (by decide) (by decide) (by decide)

/-! ## C2: symmetry of the similarity score -/

/-- The heuristic near-equality of style values is symmetric. -/
theorem bothExistAndSimilar_comm (v1 v2 : Option String) :
    bothExistAndSimilar v1 v2 = bothExistAndSimilar v2 v1 := by
  cases v1 with
  | none => cases v2 <;> rfl
  | some s1 =>
    cases v2 with
    | none => rfl
    | some s2 =>
      simp only [bothExistAndSimilar]
      by_cases h1 : s1 = "" <;> by_cases h2 : s2 = "" <;>
        simp [h1, h2] <;>
        by_cases hc1 : s1.contains '#' <;> by_cases hc2 : s2.contains '#' <;>
          simp [hc1, hc2] <;>
          exact eq_comm

/-- The per-property style score is symmetric. -/
theorem stylePropScore_comm (v1 v2 : Option String) :
    stylePropScore v1 v2 = stylePropScore v2 v1 := by
  by_cases h : v1 = v2
  · subst h
    rfl
  · simp only [stylePropScore, if_neg h, if_neg (Ne.symm h),
      bothExistAndSimilar_comm v1 v2]

/-- The style similarity term is symmetric. -/
theorem calculateStyleSimilarity_comm (n1 n2 : Node) :
    calculateStyleSimilarity n1 n2 = calculateStyleSimilarity n2 n1 := by
  simp only [calculateStyleSimilarity, styleChecklist, List.foldl]
  rw [stylePropScore_comm (n1.attrs.background),
    stylePropScore_comm (n1.attrs.color),
    stylePropScore_comm (n1.attrs.border),
    stylePropScore_comm (n1.attrs.display),
    stylePropScore_comm (n1.attrs.fontSize),
    stylePropScore_comm (n1.attrs.fontWeight),
    stylePropScore_comm (n1.attrs.lineHeight)]

/-- The dimension similarity is symmetric. -/
theorem calculateDimensionSimilarity_comm (d1 d2 : ℚ) :
    calculateDimensionSimilarity d1 d2 = calculateDimensionSimilarity d2 d1 := by
  simp only [calculateDimensionSimilarity]
  rw [abs_sub_comm d1 d2, add_comm d1 d2]

/-- The layout similarity term is symmetric. -/
theorem calculateLayoutSimilarity_comm (n1 n2 : Node) :
    calculateLayoutSimilarity n1 n2 = calculateLayoutSimilarity n2 n1 := by
  simp only [calculateLayoutSimilarity]
  rw [calculateDimensionSimilarity_comm n1.width,
    calculateDimensionSimilarity_comm n1.height]

/-- The text pattern similarity is symmetric. -/
theorem calculateTextPatternSimilarity_comm (t1 t2 : String) :
    calculateTextPatternSimilarity t1 t2 =
      calculateTextPatternSimilarity t2 t1 := by
  by_cases h : t1 = t2
  · subst h
    rfl
  · simp only [calculateTextPatternSimilarity, if_neg h, if_neg (Ne.symm h)]
    rw [abs_sub_comm ((t1.length : ℚ)), max_comm t1.length t2.length]
    congr 2
    by_cases hd : (t1.any Char.isDigit) = (t2.any Char.isDigit)
    · rw [if_pos hd, if_pos hd.symm]
    · rw [if_neg hd, if_neg (Ne.symm hd)]

/-- The content similarity term is symmetric. -/
theorem calculateContentSimilarity_comm (n1 n2 : Node) :
    calculateContentSimilarity n1 n2 = calculateContentSimilarity n2 n1 := by
  by_cases h1 : truthy n1.text = false <;> by_cases h2 : truthy n2.text = false <;>
    simp [calculateContentSimilarity, h1, h2,
      calculateTextPatternSimilarity_comm (n1.text.getD "")]

/-- The structural signature of a childless node. -/
theorem getStructureSignature_childless {n : Node} (h : n.children = []) :
    getStructureSignature n =
      { rootType := n.type, depth := 1, childTypes := [], childCount := 0 } := by
  obtain ⟨a, cs⟩ := n
  simp only [Node.children] at h
  subst h
  simp [getStructureSignature, Node.children, Node.type, Node.attrs,
    calculateDepth, childDepths]

/-- The structural term is symmetric on childless nodes. -/
theorem calculateStructuralSimilarity_comm_childless (n1 n2 : Node)
    (h1 : n1.children = []) (h2 : n2.children = []) :
    calculateStructuralSimilarity n1 n2 = calculateStructuralSimilarity n2 n1 := by
  simp only [calculateStructuralSimilarity, getStructureSignature_childless h1,
    getStructureSignature_childless h2]
  by_cases ht : n1.type = n2.type
  · rw [ht]
    simp only [ne_eq, not_true_eq_false, if_false]
    unfold calculateComponentSpecificSimilarity
    by_cases hb : n2.type = "Button"
    · simp [hb, calculateButtonStructuralSimilarity]
    · rfl
  · rw [if_pos (by simpa using ht), if_pos (by simpa using Ne.symm ht)]

/-- C2 (amended): the overall similarity is symmetric whenever both
nodes are childless; in general the greedy child-type matching makes
the structural term, and hence the score, order-dependent. -/
theorem C2_amended (cfg : GroupingConfig) (a b : Node)
    (h1 : a.children = []) (h2 : b.children = []) :
    calculateSimilarity cfg a b = calculateSimilarity cfg b a := by
  unfold calculateSimilarity
  rw [calculateStructuralSimilarity_comm_childless a b h1 h2,
    calculateStyleSimilarity_comm a b, calculateLayoutSimilarity_comm a b,
    calculateContentSimilarity_comm a b]

/-- Concrete instantiation of the amended C2 statement on two childless
buttons. -/
theorem C2_amended_witness :
    calculateSimilarity specConfig btnEx1 btnEx2 =
      calculateSimilarity specConfig btnEx2 btnEx1 :=
  C2_amended specConfig btnEx1 btnEx2 rfl rfl

/-! ## C3: determinism across runs -/

/-- C3: the group id embeds the clock and random generator of the run
(`generateGroupId`), modelled by the `gen` argument.  Two runs over the
same snapshot whose entropy differs produce records differing in the id
field, so the output is not identical across runs. -/
theorem C3_counterexample :
    (groupSimilarNodes specConfig (fun _ => "group_1700000000000_aaaaaaaaa")
        [btnEx1, btnEx2]).map NodeGroup.id =
      ["group_1700000000000_aaaaaaaaa"] ∧
    (groupSimilarNodes specConfig (fun _ => "group_1700000000001_bbbbbbbbb")
        [btnEx1, btnEx2]).map NodeGroup.id =
      ["group_1700000000001_bbbbbbbbb"] ∧
    (["group_1700000000000_aaaaaaaaa"] : List String) ≠
      ["group_1700000000001_bbbbbbbbb"] := by
  refine ⟨?_, ?_, by decide⟩ <;>
    norm_num +decide [groupSimilarNodes, groupLoop, findSimilarNodes,
      getSimilarityThreshold, calculateSimilarity, specConfig,
      calculateStructuralSimilarity, getStructureSignature, calculateDepth,
      childDepths, calculateComponentSpecificSimilarity,
      calculateButtonStructuralSimilarity, calculateStyleSimilarity,
      styleChecklist, stylePropScore, bothExistAndSimilar,
      calculateLayoutSimilarity, calculateDimensionSimilarity,
      calculateContentSimilarity, truthy, Node.text, Node.width, Node.height,
      Node.type, Node.id, Node.children, Node.attrs, btnEx1, btnEx2, mkA,
      createNodeGroup, List.filter]

/-- C3 (amended): apart from the run-dependent id field of the grouper
output, both pipelines are pure functions of the snapshot: with the ids
blanked, two runs with different clock and randomness agree on every
remaining field, and the exact detector takes no entropy at all. -/
theorem C3_amended (cfg : GroupingConfig) (gen gen2 : ℕ → String)
    (nodes : List Node) :
    (groupSimilarNodes cfg gen nodes).map eraseGroupId =
      (groupSimilarNodes cfg gen2 nodes).map eraseGroupId := by
  unfold groupSimilarNodes
  have key : ∀ (rem : List Node) (processed : List String) (k : ℕ),
      (groupLoop cfg gen nodes rem processed k).map eraseGroupId =
        (groupLoop cfg gen2 nodes rem processed k).map eraseGroupId := by
    intro rem
    induction rem with
    | nil => intro processed k; rfl
    | cons n rest ih =>
      intro processed k
      by_cases hp : n.id ∈ processed
      · simp [groupLoop, hp, ih]
      · by_cases hl : 2 ≤ (findSimilarNodes cfg n nodes processed).length
        · simp [groupLoop, hp, hl, ih, eraseGroupId, createNodeGroup]
        · simp [groupLoop, hp, hl, ih]
  exact key nodes [] 0

/-- C2: the similarity score is not symmetric.  The two container nodes
have the same type, dimensions and depth, but their child lists match
greedily in an order-dependent way: scoring the first against the second
gives 47/50, the reverse gives 97/100. -/
theorem C2_counterexample :
    calculateSimilarity specConfig divEx1 divEx2 = 47 / 50 ∧
    calculateSimilarity specConfig divEx2 divEx1 = 97 / 100 ∧
    calculateSimilarity specConfig divEx1 divEx2 ≠
      calculateSimilarity specConfig divEx2 divEx1 := by
  have e1 : calculateSimilarity specConfig divEx1 divEx2 = 47 / 50 := by
    norm_num +decide [calculateSimilarity, specConfig,
      calculateStructuralSimilarity, getStructureSignature, calculateDepth,
      childDepths, Node.children, Node.attrs, Node.type, mkA,
      calculateComponentSpecificSimilarity, calculateDivStructuralSimilarity,
      compareChildTypes, greedyGo, findBestMatch, findBestGo, pairScore,
      compareHierarchy, calculateStyleSimilarity, styleChecklist,
      stylePropScore, bothExistAndSimilar, calculateLayoutSimilarity,
      calculateDimensionSimilarity, calculateContentSimilarity, truthy,
      Node.text, Node.width, Node.height, divEx1, divEx2, leafEx, List.enum,
      List.enumFrom, List.foldl]
  have e2 : calculateSimilarity specConfig divEx2 divEx1 = 97 / 100 := by
    norm_num +decide [calculateSimilarity, specConfig,
      calculateStructuralSimilarity, getStructureSignature, calculateDepth,
      childDepths, Node.children, Node.attrs, Node.type, mkA,
      calculateComponentSpecificSimilarity, calculateDivStructuralSimilarity,
      compareChildTypes, greedyGo, findBestMatch, findBestGo, pairScore,
      compareHierarchy, calculateStyleSimilarity, styleChecklist,
      stylePropScore, bothExistAndSimilar, calculateLayoutSimilarity,
      calculateDimensionSimilarity, calculateContentSimilarity, truthy,
      Node.text, Node.width, Node.height, divEx1, divEx2, leafEx, List.enum,
      List.enumFrom, List.foldl]
  refine ⟨e1, e2, ?_⟩
  rw [e1, e2]
  norm_num

/-! ## C7: minimum group size and empty inputs -/

/-- Every group the clustering loop emits has at least two members. -/
theorem groupLoop_min_size (cfg : GroupingConfig) (gen : ℕ → String)
    (allNodes : List Node) :
    ∀ (rem : List Node) (processed : List String) (k : ℕ),
      ∀ g ∈ groupLoop cfg gen allNodes rem processed k, 2 ≤ g.nodes.length := by
  intro rem
  induction rem with
  | nil =>
    intro processed k g hg
    simp [groupLoop] at hg
  | cons n rest ih =>
    intro processed k g hg
    by_cases hp : n.id ∈ processed
    · simp only [groupLoop] at hg
      rw [if_pos (by simpa using hp)] at hg
      exact ih processed k g hg
    · simp only [groupLoop] at hg
      rw [if_neg (by simpa using hp)] at hg
      by_cases hl : 2 ≤ (findSimilarNodes cfg n allNodes processed).length
      · rw [if_pos hl] at hg
        rcases List.mem_cons.mp hg with hg | hg
        · subst hg
          exact hl
        · exact ih _ _ g hg
      · rw [if_neg hl] at hg
        exact ih processed k g hg

/-- Every raw candidate group collects a bucket of at least two nodes. -/
theorem numberBuckets_min_size (bs : List (String × List NodeAttrs)) :
    ∀ i, ∀ e ∈ numberBuckets i bs, 2 ≤ e.2.length := by
  induction bs with
  | nil => intro i e he; simp [numberBuckets] at he
  | cons b rest ih =>
    intro i e he
    simp only [numberBuckets] at he
    by_cases hb : 1 < b.2.length
    · rw [if_pos hb] at he
      rcases List.mem_cons.mp he with he | he
      · subst he
        simpa using hb
      · exact ih _ e he
    · rw [if_neg hb] at he
      exact ih _ e he

/-- The member list of every final group is the member list of some raw
candidate group. -/
theorem detectComponents_snd_mem {nm : NodeMap} {td : TreeData}
    {out : List (String × List String)}
    (hout : detectComponents nm td = some out) :
    ∀ e ∈ out, ∃ bs, buildBuckets nm td = some bs ∧
      ∃ c ∈ numberBuckets 1 bs, c.2 = e.2 := by
  intro e he
  unfold detectComponents rawComponents at hout
  cases hbs : buildBuckets nm td with
  | none => rw [hbs] at hout; cases hout
  | some bs =>
    rw [hbs] at hout
    simp only [Option.map_some', Option.some.injEq] at hout
    subst hout
    refine ⟨bs, rfl, ?_⟩
    have hsnd : e.2 ∈ (renumberFrom 1 (filteredComponents td
        (numberBuckets 1 bs))).map Prod.snd := List.mem_map_of_mem _ he
    rw [renumberFrom_map_snd] at hsnd
    rcases List.mem_map.mp hsnd with ⟨c, hc, hce⟩
    exact ⟨c, List.mem_of_mem_filter hc, hce⟩

/-- C7: no group of fewer than two members is ever emitted.  Every final
group of `detectComponents` has at least two member ids, every group of
`groupSimilarNodes` has at least two member nodes, and empty or
singleton inputs produce empty results from both pipelines. -/
theorem C7_min_group_size :
    (∀ (cfg : GroupingConfig) (gen : ℕ → String) (nodes : List Node),
      ∀ g ∈ groupSimilarNodes cfg gen nodes, 2 ≤ g.nodes.length) ∧
    (∀ (nm : NodeMap) (td : TreeData) (out : List (String × List String)),
      detectComponents nm td = some out → ∀ e ∈ out, 2 ≤ e.2.length) ∧
    (∀ td : TreeData, detectComponents [] td = some []) ∧
    (∀ (k : String) (n : NodeAttrs) (td : TreeData)
      (out : List (String × List String)),
      detectComponents [(k, n)] td = some out → out = []) ∧
    (∀ (cfg : GroupingConfig) (gen : ℕ → String),
      groupSimilarNodes cfg gen [] = []) ∧
    (∀ (cfg : GroupingConfig) (gen : ℕ → String) (n : Node),
      groupSimilarNodes cfg gen [n] = []) := by
  refine ⟨?_, ?_, ?_, ?_, ?_, ?_⟩
  · intro cfg gen nodes g hg
    exact groupLoop_min_size cfg gen nodes nodes [] 0 g hg
  · intro nm td out hout e he
    rcases detectComponents_snd_mem hout e he with ⟨bs, hbs, c, hc, hce⟩
    rw [← hce]
    exact numberBuckets_min_size bs 1 c hc
  · intro td
    rfl
  · intro k n td out hout
    unfold detectComponents rawComponents buildBuckets buildBucketsGo at hout
    cases hsig : createNodeSignature [(k, n)] td k with
    | none => rw [hsig] at hout; cases hout
    | some sig =>
      rw [hsig] at hout
      have hget : mapGet [(k, n)] k = some n := by simp [mapGet]
      rw [hget] at hout
      simp only [buildBucketsGo, bucketAdd, Option.map_some',
        Option.some.injEq] at hout
      subst hout
      rfl
  · intro cfg gen
    rfl
  · intro cfg gen n
    simp [groupSimilarNodes, groupLoop, findSimilarNodes, List.filter]

/-- Concrete instantiation of the minimum-size guarantee: the first
surviving group of the three-level example has two members. -/
theorem C7_witness : 2 ≤ (["A1", "A2"] : List String).length :=
  C7_min_group_size.2.1 nmEx1 tdEx1
    [("C1", ["A1", "A2"]), ("C2", ["C1a", "C2a"])] (by decide)
    ("C1", ["A1", "A2"]) (by decide)

/-! ## C10: the grouper never reuses a node -/

/-- The candidates a reference collects have pairwise distinct ids when
the input ids are distinct: they form a sublist of the input, and none of
them repeats the reference id. -/
theorem findSimilarNodes_ids_nodup (cfg : GroupingConfig) (ref : Node)
    (allNodes : List Node) (processed : List String)
    (hall : (allNodes.map Node.id).Nodup) :
    ((findSimilarNodes cfg ref allNodes processed).map Node.id).Nodup := by
  simp only [findSimilarNodes, List.map_cons]
  refine List.nodup_cons.mpr ⟨?_, ?_⟩
  · intro hmem
    rcases List.mem_map.mp hmem with ⟨c, hc, hid⟩
    have hp := (List.mem_filter.mp hc).2
    simp only [Bool.and_eq_true, bne_iff_ne] at hp
    exact hp.1.2 hid
  · exact List.Nodup.sublist (List.Sublist.map _ (List.filter_sublist _)) hall

/-- No collected candidate id is already processed. -/
theorem findSimilarNodes_ids_fresh (cfg : GroupingConfig) (ref : Node)
    (allNodes : List Node) (processed : List String)
    (href : ref.id ∉ processed) :
    ∀ i ∈ (findSimilarNodes cfg ref allNodes processed).map Node.id,
      i ∉ processed := by
  intro i hi
  simp only [findSimilarNodes, List.map_cons, List.mem_cons] at hi
  rcases hi with hi | hi
  · subst hi
    exact href
  · rcases List.mem_map.mp hi with ⟨c, hc, hid⟩
    have hp := (List.mem_filter.mp hc).2
    simp only [Bool.and_eq_true] at hp
    subst hid
    simpa using hp.1.1

/-- Invariant of the clustering loop: with distinct input ids, every
emitted group has distinct member ids none of which is processed at loop
entry, and the emitted groups are pairwise disjoint on member ids. -/
theorem groupLoop_disjoint (cfg : GroupingConfig) (gen : ℕ → String)
    (allNodes : List Node) (hall : (allNodes.map Node.id).Nodup) :
    ∀ (rem : List Node) (processed : List String) (k : ℕ),
      (∀ g ∈ groupLoop cfg gen allNodes rem processed k,
        (g.nodes.map Node.id).Nodup ∧
          ∀ i ∈ g.nodes.map Node.id, i ∉ processed) ∧
      List.Pairwise
        (fun g1 g2 => ∀ i ∈ g1.nodes.map Node.id, i ∉ g2.nodes.map Node.id)
        (groupLoop cfg gen allNodes rem processed k) := by
  intro rem
  induction rem with
  | nil =>
    intro processed k
    exact ⟨fun g hg => absurd hg (by simp [groupLoop]), by
      simp [groupLoop]⟩
  | cons n rest ih =>
    intro processed k
    by_cases hp : n.id ∈ processed
    · have heq : groupLoop cfg gen allNodes (n :: rest) processed k =
          groupLoop cfg gen allNodes rest processed k := by
        simp only [groupLoop]
        rw [if_pos (by simpa using hp)]
      rw [heq]
      exact ih processed k
    · by_cases hl : 2 ≤ (findSimilarNodes cfg n allNodes processed).length
      · have heq : groupLoop cfg gen allNodes (n :: rest) processed k =
            createNodeGroup (gen k) (findSimilarNodes cfg n allNodes processed) ::
              groupLoop cfg gen allNodes rest
                (processed ++
                  (findSimilarNodes cfg n allNodes processed).map Node.id)
                (k + 1) := by
          simp only [groupLoop]
          rw [if_neg (by simpa using hp), if_pos hl]
        rw [heq]
        obtain ⟨ihAll, ihPW⟩ :=
          ih (processed ++
            (findSimilarNodes cfg n allNodes processed).map Node.id) (k + 1)
        have hnodup := findSimilarNodes_ids_nodup cfg n allNodes processed hall
        have hfresh := findSimilarNodes_ids_fresh cfg n allNodes processed hp
        constructor
        · intro g hg
          rcases List.mem_cons.mp hg with hg | hg
          · subst hg
            exact ⟨hnodup, hfresh⟩
          · obtain ⟨hnd, hfr⟩ := ihAll g hg
            exact ⟨hnd, fun i hi hip => hfr i hi (List.mem_append_left _ hip)⟩
        · refine List.Pairwise.cons ?_ ihPW
          intro g2 hg2 i hi hig2
          obtain ⟨-, hfr2⟩ := ihAll g2 hg2
          exact hfr2 i hig2 (List.mem_append_right _ hi)
      · have heq : groupLoop cfg gen allNodes (n :: rest) processed k =
            groupLoop cfg gen allNodes rest processed k := by
          simp only [groupLoop]
          rw [if_neg (by simpa using hp), if_neg hl]
        rw [heq]
        exact ih processed k

/-- C10: with distinct input ids, the groups of `groupSimilarNodes` are
pairwise disjoint on member ids, and no member repeats inside a group. -/
theorem C10_no_overlap (cfg : GroupingConfig) (gen : ℕ → String)
    (nodes : List Node) (hids : (nodes.map Node.id).Nodup) :
    List.Pairwise
      (fun g1 g2 => ∀ i ∈ g1.nodes.map Node.id, i ∉ g2.nodes.map Node.id)
      (groupSimilarNodes cfg gen nodes) ∧
    ∀ g ∈ groupSimilarNodes cfg gen nodes, (g.nodes.map Node.id).Nodup := by
  obtain ⟨hAll, hPW⟩ := groupLoop_disjoint cfg gen nodes hids nodes [] 0
  exact ⟨hPW, fun g hg => (hAll g hg).1⟩

/-- Concrete instantiation of the no-overlap guarantee on two identical
buttons. -/
theorem C10_witness :
    List.Pairwise
      (fun g1 g2 => ∀ i ∈ g1.nodes.map Node.id, i ∉ g2.nodes.map Node.id)
      (groupSimilarNodes specConfig (fun _ => "gid") [btnEx1, btnEx2]) ∧
    ∀ g ∈ groupSimilarNodes specConfig (fun _ => "gid") [btnEx1, btnEx2],
      (g.nodes.map Node.id).Nodup :=
  C10_no_overlap specConfig (fun _ => "gid") [btnEx1, btnEx2] (by decide)

/-! ## C9: consecutive labels and disjoint groups -/

/-- Adding a node to its bucket appends it to the flattened bucket
contents, up to order. -/
theorem bucketAdd_flat (bs : List (String × List NodeAttrs)) (key : String)
    (v : NodeAttrs) :
    (((bucketAdd bs key v).map Prod.snd).flatten).Perm
      (((bs.map Prod.snd).flatten) ++ [v]) := by
  induction bs with
  | nil => simp [bucketAdd]
  | cons b rest ih =>
    obtain ⟨s, vs⟩ := b
    by_cases hs : s = key
    · simp only [bucketAdd, if_pos hs, List.map_cons, List.flatten_cons]
      have h1 := List.Perm.append_left vs
        (@List.perm_append_comm _ [v] ((rest.map Prod.snd).flatten))
      rw [← List.append_assoc, ← List.append_assoc] at h1
      exact h1
    · simp only [bucketAdd, if_neg hs, List.map_cons, List.flatten_cons]
      have h1 := List.Perm.append_left vs ih
      rw [← List.append_assoc] at h1
      exact h1

/-- The bucket fold distributes the processed nodes over the buckets: the
flattened final buckets are a permutation of the flattened starting
buckets followed by one looked-up node per processed entry. -/
theorem buildBucketsGo_flat (nm : NodeMap) (td : TreeData) :
    ∀ (l : List (String × NodeAttrs)) (acc : List (String × List NodeAttrs))
      (bs : List (String × List NodeAttrs)),
      buildBucketsGo nm td l acc = some bs →
      ∃ ns : List NodeAttrs,
        ((bs.map Prod.snd).flatten).Perm (((acc.map Prod.snd).flatten) ++ ns) ∧
        List.Forall₂ (fun (e : String × NodeAttrs) (n : NodeAttrs) =>
          mapGet nm e.1 = some n) l ns := by
  intro l
  induction l with
  | nil =>
    intro acc bs h
    simp only [buildBucketsGo, Option.some.injEq] at h
    subst h
    exact ⟨[], by simp, List.Forall₂.nil⟩
  | cons e rest ih =>
    intro acc bs h
    obtain ⟨k1, v1⟩ := e
    simp only [buildBucketsGo] at h
    cases hsig : createNodeSignature nm td k1 with
    | none => rw [hsig] at h; cases h
    | some sig =>
      rw [hsig] at h
      cases hget : mapGet nm k1 with
      | none => rw [hget] at h; cases h
      | some n1 =>
        rw [hget] at h
        obtain ⟨ns, hperm, hf⟩ := ih (bucketAdd acc sig n1) bs h
        refine ⟨n1 :: ns, ?_, List.Forall₂.cons hget hf⟩
        have h2 := List.Perm.append_right ns (bucketAdd_flat acc sig n1)
        have h3 := hperm.trans h2
        rw [List.append_assoc] at h3
        exact h3

/-- When every node map entry carries its key as id, the looked-up nodes
of the fold carry exactly the keys of the processed entries as ids. -/
theorem forall₂_ids {nm : NodeMap} (hid : ∀ e ∈ nm, e.2.id = e.1)
    {l : List (String × NodeAttrs)} {ns : List NodeAttrs}
    (hf : List.Forall₂ (fun (e : String × NodeAttrs) (n : NodeAttrs) =>
      mapGet nm e.1 = some n) l ns) :
    ns.map (·.id) = l.map Prod.fst := by
  induction hf with
  | nil => rfl
  | cons h hrest ihh =>
    simp only [List.map_cons, ihh]
    rw [hid _ (mapGet_mem h)]

/-- A concatenation with no duplicates splits into parts with no
duplicates that are pairwise disjoint. -/
theorem flatten_nodup_parts {γ : Type} {L : List (List γ)}
    (h : L.flatten.Nodup) :
    (∀ l ∈ L, l.Nodup) ∧
      List.Pairwise (fun l1 l2 => ∀ x ∈ l1, x ∉ l2) L := by
  induction L with
  | nil => exact ⟨fun l hl => absurd hl (by simp), List.Pairwise.nil⟩
  | cons l rest ih =>
    rw [List.flatten_cons, List.nodup_append] at h
    obtain ⟨hl, hrest, hdisj⟩ := h
    obtain ⟨ihAll, ihPW⟩ := ih hrest
    refine ⟨?_, List.Pairwise.cons ?_ ihPW⟩
    · intro l2 hl2
      rcases List.mem_cons.mp hl2 with rfl | hl2
      · exact hl
      · exact ihAll l2 hl2
    · intro l2 hl2 x hx hx2
      exact hdisj hx (List.mem_flatten.mpr ⟨l2, hl2, hx2⟩)

/-- The member-id lists of the raw candidate groups form a sublist of the
per-bucket member-id lists. -/
theorem numberBuckets_snd_sublist (bs : List (String × List NodeAttrs)) :
    ∀ i, ((numberBuckets i bs).map Prod.snd).Sublist
      ((bs.map Prod.snd).map (List.map (·.id))) := by
  induction bs with
  | nil => intro i; simp [numberBuckets]
  | cons b rest ih =>
    intro i
    simp only [numberBuckets, List.map_cons]
    by_cases hb : 1 < b.2.length
    · rw [if_pos hb]
      simp only [List.map_cons]
      exact List.Sublist.cons₂ (b.2.map (·.id)) (ih (i + 1))
    · rw [if_neg hb]
      exact List.Sublist.cons _ (ih i)

/-- The keys assigned by sequential renumbering. -/
theorem renumberFrom_keys (cs : List (String × List String)) :
    ∀ i, (renumberFrom i cs).map Prod.fst =
      (List.range cs.length).map (fun j => "C" ++ toString (i + j)) := by
  induction cs with
  | nil => intro i; rfl
  | cons c rest ih =>
    intro i
    simp only [renumberFrom, List.map_cons, List.length_cons,
      List.range_succ_eq_map, ih (i + 1), List.map_map]
    rw [Nat.add_zero]
    congr 1
    congr 1
    funext j
    simp only [Function.comp_apply]
    have h : i + 1 + j = i + Nat.succ j := by omega
    rw [h]

/-- Renumbering keeps the number of groups. -/
theorem renumberFrom_length (i : ℕ) (cs : List (String × List String)) :
    (renumberFrom i cs).length = cs.length := by
  have h := congrArg List.length (renumberFrom_map_snd i cs)
  simpa using h

/-- C9: the final map of `detectComponents` is keyed exactly by the
consecutive labels C1, C2, ... in order, and (when node map keys are
unique and each entry carries its key as id, as every converted snapshot
does) no node id belongs to two different surviving groups. -/
theorem C9_labels_and_no_overlap (nm : NodeMap) (td : TreeData)
    (out : List (String × List String))
    (hout : detectComponents nm td = some out)
    (hkeys : (nm.map Prod.fst).Nodup) (hid : ∀ e ∈ nm, e.2.id = e.1) :
    out.map Prod.fst =
      (List.range out.length).map (fun j => "C" ++ toString (j + 1)) ∧
    List.Pairwise (fun g1 g2 => ∀ i ∈ g1.2, i ∉ g2.2) out := by
  unfold detectComponents rawComponents at hout
  cases hbs : buildBuckets nm td with
  | none => rw [hbs] at hout; cases hout
  | some bs =>
    rw [hbs] at hout
    simp only [Option.map_some', Option.some.injEq] at hout
    subst hout
    constructor
    · rw [renumberFrom_keys, renumberFrom_length]
      congr 1
      funext j
      rw [Nat.add_comm]
    · unfold buildBuckets at hbs
      obtain ⟨ns, hperm, hf⟩ := buildBucketsGo_flat nm td nm [] bs hbs
      have hids : ns.map (·.id) = nm.map Prod.fst := forall₂_ids hid hf
      have hperm0 : ((bs.map Prod.snd).flatten).Perm ns := by simpa using hperm
      have hperm2 := hperm0.map (fun a => a.id)
      have hnodup : (((bs.map Prod.snd).flatten).map (·.id)).Nodup := by
        rw [hperm2.nodup_iff, hids]
        exact hkeys
      rw [List.map_flatten] at hnodup
      obtain ⟨-, hPW⟩ := flatten_nodup_parts hnodup
      have h1 := List.Pairwise.sublist (numberBuckets_snd_sublist bs 1) hPW
      have hsub : ((filteredComponents td (numberBuckets 1 bs)).map
          Prod.snd).Sublist ((numberBuckets 1 bs).map Prod.snd) :=
        List.Sublist.map _ (List.filter_sublist _)
      have h2 := List.Pairwise.sublist hsub h1
      have h3 := renumberFrom_map_snd 1 (filteredComponents td
        (numberBuckets 1 bs))
      rw [← h3] at h2
      exact List.pairwise_map.mp h2

/-- Concrete instantiation of the C9 guarantee on the three-level
example. -/
theorem C9_witness :
    ([("C1", ["A1", "A2"]), ("C2", ["C1a", "C2a"])] :
        List (String × List String)).map Prod.fst =
      (List.range ([("C1", ["A1", "A2"]), ("C2", ["C1a", "C2a"])] :
        List (String × List String)).length).map
        (fun j => "C" ++ toString (j + 1)) ∧
    List.Pairwise (fun g1 g2 => ∀ i ∈ g1.2, i ∉ g2.2)
      ([("C1", ["A1", "A2"]), ("C2", ["C1a", "C2a"])] :
        List (String × List String)) :=
  C9_labels_and_no_overlap nmEx1 tdEx1 _ (by decide) (by decide) (by decide)

/-! ## C8: signatures ignore child order -/

/-- The lexicographic comparison is asymmetric. -/
theorem strLtB_asymm : ∀ (as bs : List Char),
    strLtB as bs = true → strLtB bs as = false := by
  intro as
  induction as with
  | nil =>
    intro bs h
    cases bs with
    | nil => simp [strLtB] at h
    | cons b bs => rfl
  | cons a as ih =>
    intro bs h
    cases bs with
    | nil => simp [strLtB] at h
    | cons b bs =>
      simp only [strLtB] at h ⊢
      by_cases h1 : a.toNat < b.toNat
      · rw [if_neg (by omega), if_pos h1]
      · by_cases h2 : b.toNat < a.toNat
        · rw [if_neg h1, if_pos h2] at h
          cases h
        · rw [if_neg h1, if_neg h2] at h
          rw [if_neg h2, if_neg h1]
          exact ih bs h

/-- The lexicographic comparison is transitive. -/
theorem strLtB_trans : ∀ (as bs cs : List Char),
    strLtB as bs = true → strLtB bs cs = true → strLtB as cs = true := by
  intro as
  induction as with
  | nil =>
    intro bs cs h1 h2
    cases bs with
    | nil => simp [strLtB] at h1
    | cons b bs =>
      cases cs with
      | nil => simp [strLtB] at h2
      | cons c cs => rfl
  | cons a as ih =>
    intro bs cs h1 h2
    cases bs with
    | nil => simp [strLtB] at h1
    | cons b bs =>
      cases cs with
      | nil => simp [strLtB] at h2
      | cons c cs =>
        simp only [strLtB] at h1 h2 ⊢
        by_cases hab : a.toNat < b.toNat
        · by_cases hbc : b.toNat < c.toNat
          · rw [if_pos (by omega)]
          · by_cases hcb : c.toNat < b.toNat
            · rw [if_neg hbc, if_pos hcb] at h2
              cases h2
            · rw [if_pos (by omega)]
        · by_cases hba : b.toNat < a.toNat
          · rw [if_neg hab, if_pos hba] at h1
            cases h1
          · rw [if_neg hab, if_neg hba] at h1
            by_cases hbc : b.toNat < c.toNat
            · rw [if_pos (by omega)]
            · by_cases hcb : c.toNat < b.toNat
              · rw [if_neg hbc, if_pos hcb] at h2
                cases h2
              · rw [if_neg hbc, if_neg hcb] at h2
                rw [if_neg (by omega), if_neg (by omega)]
                exact ih bs cs h1 h2

/-- Two char lists neither of which precedes the other are equal. -/
theorem strLtB_conn : ∀ (as bs : List Char),
    strLtB as bs = false → strLtB bs as = false → as = bs := by
  intro as
  induction as with
  | nil =>
    intro bs h1 h2
    cases bs with
    | nil => rfl
    | cons b bs => simp [strLtB] at h1
  | cons a as ih =>
    intro bs h1 h2
    cases bs with
    | nil => simp [strLtB] at h2
    | cons b bs =>
      simp only [strLtB] at h1 h2
      by_cases hab : a.toNat < b.toNat
      · rw [if_pos hab] at h1
        cases h1
      · by_cases hba : b.toNat < a.toNat
        · rw [if_pos hba] at h2
          cases h2
        · have h3 : a.toNat = b.toNat := by omega
          have hac : a = b := Char.ext (UInt32.ext h3)
          rw [if_neg hab, if_neg hba] at h1
          rw [if_neg hba, if_neg hab] at h2
          rw [hac, ih bs h1 h2]

/-- The string comparison used by the sort is total. -/
theorem strLeB_total (a b : String) :
    strLeB a b = true ∨ strLeB b a = true := by
  unfold strLeB
  by_cases h : strLtB b.data a.data = true
  · right
    simp [strLtB_asymm _ _ h]
  · left
    simp only [Bool.not_eq_true] at h
    simp [h]

/-- The string comparison used by the sort is transitive. -/
theorem strLeB_trans (a b c : String) (h1 : strLeB a b = true)
    (h2 : strLeB b c = true) : strLeB a c = true := by
  unfold strLeB at h1 h2 ⊢
  simp only [Bool.not_eq_true'] at h1 h2 ⊢
  cases hca : strLtB c.data a.data with
  | false => rfl
  | true =>
    by_cases hab : strLtB a.data b.data = true
    · rw [strLtB_trans c.data a.data b.data hca hab] at h2
      cases h2
    · simp only [Bool.not_eq_true] at hab
      have hdata : a.data = b.data := strLtB_conn a.data b.data hab h1
      rw [← hdata] at h2
      rw [hca] at h2
      cases h2

/-- The string comparison used by the sort is antisymmetric. -/
theorem strLeB_antisymm (a b : String) (h1 : strLeB a b = true)
    (h2 : strLeB b a = true) : a = b := by
  unfold strLeB at h1 h2
  simp only [Bool.not_eq_true'] at h1 h2
  exact String.ext (strLtB_conn a.data b.data h2 h1)

/-- Sorted insertion permutes to consing. -/
theorem insertSorted_perm (s : String) (l : List String) :
    (insertSorted s l).Perm (s :: l) := by
  induction l with
  | nil => exact List.Perm.refl _
  | cons t ts ih =>
    simp only [insertSorted]
    by_cases h : strLeB s t = true
    · rw [if_pos h]
    · rw [if_neg h]
      exact (List.Perm.cons t ih).trans (List.Perm.swap s t ts)

/-- The sort permutes its input. -/
theorem sortStrings_perm (l : List String) : (sortStrings l).Perm l := by
  induction l with
  | nil => exact List.Perm.refl _
  | cons s ss ih =>
    simp only [sortStrings]
    exact (insertSorted_perm s (sortStrings ss)).trans (List.Perm.cons s ih)

/-- Sorted insertion preserves sortedness. -/
theorem insertSorted_sorted (s : String) :
    ∀ (l : List String),
      List.Pairwise (fun a b => strLeB a b = true) l →
      List.Pairwise (fun a b => strLeB a b = true) (insertSorted s l) := by
  intro l
  induction l with
  | nil =>
    intro h
    simp [insertSorted]
  | cons t ts ih =>
    intro h
    obtain ⟨hts, hps⟩ := List.pairwise_cons.mp h
    simp only [insertSorted]
    by_cases hst : strLeB s t = true
    · rw [if_pos hst]
      refine List.Pairwise.cons ?_ h
      intro x hx
      rcases List.mem_cons.mp hx with rfl | hx
      · exact hst
      · exact strLeB_trans s t x hst (hts x hx)
    · rw [if_neg hst]
      refine List.Pairwise.cons ?_ (ih hps)
      intro x hx
      have hx2 := (insertSorted_perm s ts).mem_iff.mp hx
      rcases List.mem_cons.mp hx2 with rfl | hx2
      · rcases strLeB_total t x with h0 | h0
        · exact h0
        · exact absurd h0 hst
      · exact hts x hx2

/-- The sort produces a sorted list. -/
theorem sortStrings_sorted (l : List String) :
    List.Pairwise (fun a b => strLeB a b = true) (sortStrings l) := by
  induction l with
  | nil => exact List.Pairwise.nil
  | cons s ss ih => exact insertSorted_sorted s _ ih

/-- Permutations sort to the same list. -/
theorem sortStrings_eq_of_perm {l1 l2 : List String} (h : l1.Perm l2) :
    sortStrings l1 = sortStrings l2 := by
  have hperm : (sortStrings l1).Perm (sortStrings l2) :=
    (sortStrings_perm l1).trans (h.trans (sortStrings_perm l2).symm)
  haveI : IsAntisymm String (fun a b => strLeB a b = true) :=
    ⟨strLeB_antisymm⟩
  exact List.eq_of_perm_of_sorted hperm (sortStrings_sorted l1)
    (sortStrings_sorted l2)

/-- Child-signature computation over permuted child lists: both fail
together, or both succeed with permuted results. -/
theorem childShallowSigs_perm (nm : NodeMap) {c1 c2 : List String}
    (h : c1.Perm c2) :
    (childShallowSigs nm c1 = none ∧ childShallowSigs nm c2 = none) ∨
    (∃ l1 l2, childShallowSigs nm c1 = some l1 ∧
      childShallowSigs nm c2 = some l2 ∧ l1.Perm l2) := by
  induction h with
  | nil => exact Or.inr ⟨[], [], rfl, rfl, List.Perm.refl _⟩
  | cons x h ih =>
    cases hx : mapGet nm x with
    | none =>
      exact Or.inl ⟨by simp [childShallowSigs, hx],
        by simp [childShallowSigs, hx]⟩
    | some n =>
      rcases ih with ⟨h1, h2⟩ | ⟨l1, l2, h1, h2, hp⟩
      · exact Or.inl ⟨by simp [childShallowSigs, hx, h1],
          by simp [childShallowSigs, hx, h2]⟩
      · exact Or.inr ⟨shallowSignature n :: l1, shallowSignature n :: l2,
          by simp [childShallowSigs, hx, h1],
          by simp [childShallowSigs, hx, h2], List.Perm.cons _ hp⟩
  | swap x y l =>
    cases hx : mapGet nm x with
    | none =>
      refine Or.inl ⟨?_, ?_⟩
      · cases hy : mapGet nm y <;> simp [childShallowSigs, hy, hx]
      · simp [childShallowSigs, hx]
    | some nx =>
      cases hy : mapGet nm y with
      | none =>
        exact Or.inl ⟨by simp [childShallowSigs, hy],
          by simp [childShallowSigs, hx, hy]⟩
      | some ny =>
        cases hrec : childShallowSigs nm l with
        | none =>
          exact Or.inl ⟨by simp [childShallowSigs, hx, hy, hrec],
            by simp [childShallowSigs, hx, hy, hrec]⟩
        | some ls =>
          exact Or.inr ⟨shallowSignature ny :: shallowSignature nx :: ls,
            shallowSignature nx :: shallowSignature ny :: ls,
            by simp [childShallowSigs, hx, hy, hrec],
            by simp [childShallowSigs, hx, hy, hrec],
            List.Perm.swap (shallowSignature nx) (shallowSignature ny) ls⟩
  | trans h1 h2 ih1 ih2 =>
    rcases ih1 with ⟨ha, hb⟩ | ⟨l1, l2, ha, hb, hp⟩
    · rcases ih2 with ⟨hc, hd⟩ | ⟨m1, m2, hc, hd, hq⟩
      · exact Or.inl ⟨ha, hd⟩
      · rw [hb] at hc
        cases hc
    · rcases ih2 with ⟨hc, hd⟩ | ⟨m1, m2, hc, hd, hq⟩
      · rw [hc] at hb
        cases hb
      · rw [hb] at hc
        injection hc with he
        subst he
        exact Or.inr ⟨l1, m2, ha, hd, hp.trans hq⟩

/-- C8: permuting the child id list of a node in the adjacency map does
not change the node signature: the child signatures are sorted before
joining, so the result is order-independent. -/
theorem C8_signature_order_independent (nm : NodeMap) (td td2 : TreeData)
    (nodeId : String) (tn tn2 : TreeNode)
    (h1 : mapGet td nodeId = some tn) (h2 : mapGet td2 nodeId = some tn2)
    (hperm : tn.children.Perm tn2.children) :
    createNodeSignature nm td nodeId = createNodeSignature nm td2 nodeId := by
  unfold createNodeSignature
  rw [h1, h2]
  cases hn : mapGet nm nodeId with
  | none => rfl
  | some n =>
    dsimp only
    by_cases hc : tn.children = []
    · have hc2 : tn2.children = [] := ((hc ▸ hperm).symm).eq_nil
      rw [if_pos hc, if_pos hc2]
    · have hc2 : tn2.children ≠ [] := fun h0 =>
        hc (((h0 ▸ hperm)).eq_nil)
      rw [if_neg hc, if_neg hc2]
      rcases childShallowSigs_perm nm hperm with ⟨ha, hb⟩ | ⟨l1, l2, ha, hb, hp⟩
      · rw [ha, hb]
      · rw [ha, hb]
        simp only [Option.map_some']
        rw [sortStrings_eq_of_perm hp]

/-- Concrete instantiation of C8: node B2 of the three-level example with
its two children swapped keeps its signature. -/
theorem C8_witness :
    createNodeSignature nmEx1 tdEx1 "B2" =
      createNodeSignature nmEx1 [("B2", ⟨"B2", ["D", "C2a"]⟩)] "B2" :=
  C8_signature_order_independent nmEx1 tdEx1 [("B2", ⟨"B2", ["D", "C2a"]⟩)]
    "B2" ⟨"B2", ["C2a", "D"]⟩ ⟨"B2", ["D", "C2a"]⟩ (by decide) (by decide)
    (List.Perm.swap "D" "C2a" [])

/-! ## C6: the weighted sum and its range -/

/-- One child-pair score lies between 0 and 1. -/
theorem pairScore_bounds (a b : ChildTypeInfo) :
    0 ≤ pairScore a b ∧ pairScore a b ≤ 1 := by
  unfold pairScore
  split_ifs <;> norm_num

/-- The best score tracked by the inner scan stays between 0 and 1. -/
theorem findBestGo_snd_bounds (a : ChildTypeInfo) (used : List ℕ) :
    ∀ (l : List (ℕ × ChildTypeInfo)) (bi : Option ℕ) (bs : ℚ),
      0 ≤ bs → bs ≤ 1 →
      0 ≤ (findBestGo a used l bi bs).2 ∧ (findBestGo a used l bi bs).2 ≤ 1 := by
  intro l
  induction l with
  | nil =>
    intro bi bs h0 h1
    exact ⟨h0, h1⟩
  | cons jb rest ih =>
    intro bi bs h0 h1
    obtain ⟨j, b⟩ := jb
    simp only [findBestGo]
    split_ifs with hu hlt
    · exact ih bi bs h0 h1
    · exact ih (some j) (pairScore a b) (pairScore_bounds a b).1
        (pairScore_bounds a b).2
    · exact ih bi bs h0 h1

/-- The greedy match score grows by at most one per matched child. -/
theorem greedyGo_bounds (c2 : List ChildTypeInfo) :
    ∀ (l : List ChildTypeInfo) (used : List ℕ) (acc : ℚ),
      acc ≤ greedyGo c2 l used acc ∧
        greedyGo c2 l used acc ≤ acc + l.length := by
  intro l
  induction l with
  | nil =>
    intro used acc
    exact ⟨le_refl _, by simp [greedyGo]⟩
  | cons a rest ih =>
    intro used acc
    simp only [greedyGo]
    rcases hfb : findBestMatch a c2 used with ⟨bi, s⟩
    cases bi with
    | some j =>
      have hs : 0 ≤ s ∧ s ≤ 1 := by
        have hb := findBestGo_snd_bounds a used c2.enum none 0 (le_refl 0)
          (by norm_num)
        unfold findBestMatch at hfb
        rw [hfb] at hb
        exact hb
      obtain ⟨ih1, ih2⟩ := ih (j :: used) (acc + s)
      constructor
      · linarith [hs.1]
      · simp only [List.length_cons]
        push_cast
        linarith [hs.2]
    | none =>
      obtain ⟨ih1, ih2⟩ := ih used acc
      constructor
      · exact ih1
      · simp only [List.length_cons]
        push_cast
        linarith

/-- The child-type comparison lies between 0 and 1. -/
theorem compareChildTypes_bounds (c1 c2 : List ChildTypeInfo) :
    0 ≤ compareChildTypes c1 c2 ∧ compareChildTypes c1 c2 ≤ 1 := by
  simp only [compareChildTypes]
  split_ifs with h1 h2
  · norm_num
  · norm_num
  · push_neg at h2
    obtain ⟨hne1, hne2⟩ := h2
    have hlen1 : 1 ≤ c1.length := List.length_pos.mpr hne1
    have hlen2 : 1 ≤ c2.length := List.length_pos.mpr hne2
    have hM1 : (1:ℚ) ≤ ((max c1.length c2.length : ℕ) : ℚ) := by
      exact_mod_cast le_trans hlen1 (Nat.le_max_left _ _)
    have hm0 : (0:ℚ) ≤ ((min c1.length c2.length : ℕ) : ℚ) :=
      Nat.cast_nonneg _
    have hmM : ((min c1.length c2.length : ℕ) : ℚ) ≤
        ((max c1.length c2.length : ℕ) : ℚ) := by
      exact_mod_cast min_le_max
    have hM0 : (0:ℚ) < ((max c1.length c2.length : ℕ) : ℚ) := by linarith
    have hg := greedyGo_bounds c2 c1 [] 0
    have hg0 : 0 ≤ greedyGo c2 c1 [] 0 := by
      have := hg.1
      linarith [this]
    have hgM : greedyGo c2 c1 [] 0 ≤ ((max c1.length c2.length : ℕ) : ℚ) := by
      have h2' := hg.2
      have hc1M : (c1.length : ℚ) ≤ ((max c1.length c2.length : ℕ) : ℚ) := by
        exact_mod_cast Nat.le_max_left _ _
      linarith
    have hnorm1 : greedyGo c2 c1 [] 0 / ((max c1.length c2.length : ℕ) : ℚ) ≤ 1 := by
      rw [div_le_one hM0]
      exact hgM
    have hnorm0 : 0 ≤ greedyGo c2 c1 [] 0 /
        ((max c1.length c2.length : ℕ) : ℚ) := div_nonneg hg0 (le_of_lt hM0)
    have hd0 : 0 ≤ (((max c1.length c2.length : ℕ) : ℚ) -
        ((min c1.length c2.length : ℕ) : ℚ)) /
        ((max c1.length c2.length : ℕ) : ℚ) :=
      div_nonneg (by linarith) (le_of_lt hM0)
    have hd1 : (((max c1.length c2.length : ℕ) : ℚ) -
        ((min c1.length c2.length : ℕ) : ℚ)) /
        ((max c1.length c2.length : ℕ) : ℚ) ≤ 1 := by
      rw [div_le_one hM0]
      linarith
    constructor
    · apply mul_nonneg hnorm0
      linarith
    · have := mul_le_mul hnorm1 (by linarith :
        1 - (((max c1.length c2.length : ℕ) : ℚ) -
          ((min c1.length c2.length : ℕ) : ℚ)) /
          ((max c1.length c2.length : ℕ) : ℚ) * 0.5 ≤ 1)
        (by linarith) (by norm_num)
      linarith

/-- The hierarchy comparison lies between 0 and 1. -/
theorem compareHierarchy_bounds (s1 s2 : StructureSignature) :
    0 ≤ compareHierarchy s1 s2 ∧ compareHierarchy s1 s2 ≤ 1 := by
  unfold compareHierarchy
  have habs : ∀ h : s1.childCount ≠ s2.childCount,
      0 ≤ |(s1.childCount : ℚ) - (s2.childCount : ℚ)| /
          ((max s1.childCount s2.childCount : ℕ) : ℚ) ∧
        |(s1.childCount : ℚ) - (s2.childCount : ℚ)| /
          ((max s1.childCount s2.childCount : ℕ) : ℚ) ≤ 1 := by
    intro hne
    have hM : 1 ≤ max s1.childCount s2.childCount := by omega
    have hMQ : (0:ℚ) < ((max s1.childCount s2.childCount : ℕ) : ℚ) := by
      exact_mod_cast hM
    have ha : (s1.childCount : ℚ) ≤
        ((max s1.childCount s2.childCount : ℕ) : ℚ) := by
      exact_mod_cast Nat.le_max_left _ _
    have hb : (s2.childCount : ℚ) ≤
        ((max s1.childCount s2.childCount : ℕ) : ℚ) := by
      exact_mod_cast Nat.le_max_right _ _
    have h0a : (0:ℚ) ≤ (s1.childCount : ℚ) := Nat.cast_nonneg _
    have h0b : (0:ℚ) ≤ (s2.childCount : ℚ) := Nat.cast_nonneg _
    have hdM : |(s1.childCount : ℚ) - (s2.childCount : ℚ)| ≤
        ((max s1.childCount s2.childCount : ℕ) : ℚ) := by
      rw [abs_sub_le_iff]
      constructor <;> linarith
    constructor
    · exact div_nonneg (abs_nonneg _) hMQ.le
    · rw [div_le_one hMQ]
      exact hdM
  split_ifs with h1 h2 h3
  · constructor <;> norm_num
  · have := habs h2
    constructor <;> linarith [this.1, this.2]
  · constructor <;> norm_num
  · have := habs h3
    constructor <;> linarith [this.1, this.2]

/-- The button structural similarity lies between 0 and 1. -/
theorem calculateButtonStructuralSimilarity_bounds
    (s1 s2 : StructureSignature) (n1 n2 : Node) :
    0 ≤ calculateButtonStructuralSimilarity s1 s2 n1 n2 ∧
      calculateButtonStructuralSimilarity s1 s2 n1 n2 ≤ 1 := by
  simp only [calculateButtonStructuralSimilarity]
  split_ifs with h1 h2 h3 h4 h5
  · norm_num
  · norm_num
  · norm_num
  · norm_num
  · norm_num
  · have hM : 1 ≤ max s1.childCount s2.childCount := by omega
    have hMQ : (0:ℚ) < ((max s1.childCount s2.childCount : ℕ) : ℚ) := by
      exact_mod_cast hM
    have hd : 0 ≤ |(s1.childCount : ℚ) - (s2.childCount : ℚ)| /
        ((max s1.childCount s2.childCount : ℕ) : ℚ) :=
      div_nonneg (abs_nonneg _) hMQ.le
    constructor
    · exact le_max_left 0 _
    · apply max_le (by norm_num)
      linarith

/-- The div structural similarity lies between 0 and 1. -/
theorem calculateDivStructuralSimilarity_bounds (s1 s2 : StructureSignature) :
    0 ≤ calculateDivStructuralSimilarity s1 s2 ∧
      calculateDivStructuralSimilarity s1 s2 ≤ 1 := by
  unfold calculateDivStructuralSimilarity
  split_ifs with h
  · norm_num
  · have hct := compareChildTypes_bounds s1.childTypes s2.childTypes
    have hch := compareHierarchy_bounds s1 s2
    constructor <;> [linarith [hct.1, hch.1]; linarith [hct.2, hch.2]]

/-- The default structural similarity lies between 0 and 1. -/
theorem calculateDefaultStructuralSimilarity_bounds
    (s1 s2 : StructureSignature) :
    0 ≤ calculateDefaultStructuralSimilarity s1 s2 ∧
      calculateDefaultStructuralSimilarity s1 s2 ≤ 1 := by
  unfold calculateDefaultStructuralSimilarity
  split_ifs with h
  · norm_num
  · have hct := compareChildTypes_bounds s1.childTypes s2.childTypes
    have hch := compareHierarchy_bounds s1 s2
    constructor <;> [linarith [hct.1, hch.1]; linarith [hct.2, hch.2]]

/-- The input structural similarity lies between 0 and 1. -/
theorem calculateInputStructuralSimilarity_bounds
    (s1 s2 : StructureSignature) :
    0 ≤ calculateInputStructuralSimilarity s1 s2 ∧
      calculateInputStructuralSimilarity s1 s2 ≤ 1 := by
  unfold calculateInputStructuralSimilarity
  split_ifs with h1 h2
  · norm_num
  · norm_num
  · exact calculateDefaultStructuralSimilarity_bounds s1 s2

/-- The structural term lies between 0 and 1. -/
theorem calculateStructuralSimilarity_bounds (n1 n2 : Node) :
    0 ≤ calculateStructuralSimilarity n1 n2 ∧
      calculateStructuralSimilarity n1 n2 ≤ 1 := by
  simp only [calculateStructuralSimilarity, calculateComponentSpecificSimilarity]
  split_ifs with h1 h2 h3 h4
  · norm_num
  · exact calculateButtonStructuralSimilarity_bounds _ _ n1 n2
  · exact calculateDivStructuralSimilarity_bounds _ _
  · exact calculateInputStructuralSimilarity_bounds _ _
  · exact calculateDefaultStructuralSimilarity_bounds _ _

/-- One style-property score lies between 0 and 1. -/
theorem stylePropScore_bounds (v1 v2 : Option String) :
    0 ≤ stylePropScore v1 v2 ∧ stylePropScore v1 v2 ≤ 1 := by
  unfold stylePropScore
  split_ifs <;> norm_num

/-- The style term lies between 0 and 1. -/
theorem calculateStyleSimilarity_bounds (n1 n2 : Node) :
    0 ≤ calculateStyleSimilarity n1 n2 ∧ calculateStyleSimilarity n1 n2 ≤ 1 := by
  unfold calculateStyleSimilarity styleChecklist
  simp only [List.foldl]
  have h1 := stylePropScore_bounds n1.attrs.background n2.attrs.background
  have h2 := stylePropScore_bounds n1.attrs.color n2.attrs.color
  have h3 := stylePropScore_bounds n1.attrs.border n2.attrs.border
  have h4 := stylePropScore_bounds n1.attrs.display n2.attrs.display
  have h5 := stylePropScore_bounds n1.attrs.fontSize n2.attrs.fontSize
  have h6 := stylePropScore_bounds n1.attrs.fontWeight n2.attrs.fontWeight
  have h7 := stylePropScore_bounds n1.attrs.lineHeight n2.attrs.lineHeight
  constructor
  · apply div_nonneg _ (by norm_num)
    linarith [h1.1, h2.1, h3.1, h4.1, h5.1, h6.1, h7.1]
  · rw [div_le_one (by norm_num)]
    linarith [h1.2, h2.2, h3.2, h4.2, h5.2, h6.2, h7.2]

/-- The dimension similarity lies between 0 and 1 for non-negative
dimensions. -/
theorem calculateDimensionSimilarity_bounds (d1 d2 : ℚ) (h1 : 0 ≤ d1)
    (h2 : 0 ≤ d2) :
    0 ≤ calculateDimensionSimilarity d1 d2 ∧
      calculateDimensionSimilarity d1 d2 ≤ 1 := by
  simp only [calculateDimensionSimilarity]
  split_ifs with h
  · norm_num
  · have havg : 0 < (d1 + d2) / 2 := by
      rcases lt_or_eq_of_le (by linarith : (0:ℚ) ≤ (d1 + d2) / 2) with hp | hp
      · exact hp
      · exfalso
        have hd1 : d1 = 0 := by linarith
        have hd2 : d2 = 0 := by linarith
        rw [hd1, hd2] at h
        simp at h
    constructor
    · exact le_max_left 0 _
    · apply max_le (by norm_num)
      push_neg at h
      have hnum : 0 ≤ |d1 - d2| - (d1 + d2) / 2 * 0.2 := by linarith
      have := div_nonneg hnum havg.le
      linarith

/-- The layout term lies between 0 and 1 for non-negative dimensions. -/
theorem calculateLayoutSimilarity_bounds (n1 n2 : Node) (hw1 : 0 ≤ n1.width)
    (hh1 : 0 ≤ n1.height) (hw2 : 0 ≤ n2.width) (hh2 : 0 ≤ n2.height) :
    0 ≤ calculateLayoutSimilarity n1 n2 ∧
      calculateLayoutSimilarity n1 n2 ≤ 1 := by
  unfold calculateLayoutSimilarity
  have hw := calculateDimensionSimilarity_bounds n1.width n2.width hw1 hw2
  have hh := calculateDimensionSimilarity_bounds n1.height n2.height hh1 hh2
  constructor
  · linarith [hw.1, hh.1]
  · linarith [hw.2, hh.2]

/-- A non-empty string has positive length. -/
theorem length_pos_of_ne_empty {s : String} (h : s ≠ "") : 0 < s.length := by
  cases s with
  | mk data =>
    cases data with
    | nil => simp at h
    | cons c cs => simp [String.length]

/-- A truthy optional string yields a non-empty default value. -/
theorem truthy_getD {o : Option String} (h : truthy o ≠ false) :
    o.getD "" ≠ "" := by
  cases o with
  | none => simp [truthy] at h
  | some s =>
    simp only [truthy] at h
    by_cases hs : s = ""
    · subst hs
      simp at h
    · simpa [Option.getD] using hs

/-- The text pattern similarity lies between 0 and 1 for non-empty
texts. -/
theorem calculateTextPatternSimilarity_bounds (t1 t2 : String)
    (h1 : t1 ≠ "") (h2 : t2 ≠ "") :
    0 ≤ calculateTextPatternSimilarity t1 t2 ∧
      calculateTextPatternSimilarity t1 t2 ≤ 1 := by
  have hp1 : 0 < t1.length := length_pos_of_ne_empty h1
  have hp2 : 0 < t2.length := length_pos_of_ne_empty h2
  have hM : (1:ℚ) ≤ ((max t1.length t2.length : ℕ) : ℚ) := by
    exact_mod_cast le_trans hp1 (Nat.le_max_left _ _)
  have hMQ : (0:ℚ) < ((max t1.length t2.length : ℕ) : ℚ) := by linarith
  have ha : (t1.length : ℚ) ≤ ((max t1.length t2.length : ℕ) : ℚ) := by
    exact_mod_cast Nat.le_max_left _ _
  have hb : (t2.length : ℚ) ≤ ((max t1.length t2.length : ℕ) : ℚ) := by
    exact_mod_cast Nat.le_max_right _ _
  have h0a : (0:ℚ) ≤ (t1.length : ℚ) := Nat.cast_nonneg _
  have h0b : (0:ℚ) ≤ (t2.length : ℚ) := Nat.cast_nonneg _
  have hdM : |(t1.length : ℚ) - (t2.length : ℚ)| ≤
      ((max t1.length t2.length : ℕ) : ℚ) := by
    rw [abs_sub_le_iff]
    constructor <;> linarith
  have hdiv0 : 0 ≤ |(t1.length : ℚ) - (t2.length : ℚ)| /
      ((max t1.length t2.length : ℕ) : ℚ) :=
    div_nonneg (abs_nonneg _) hMQ.le
  have hdiv1 : |(t1.length : ℚ) - (t2.length : ℚ)| /
      ((max t1.length t2.length : ℕ) : ℚ) ≤ 1 := by
    rw [div_le_one hMQ]
    exact hdM
  simp only [calculateTextPatternSimilarity]
  split_ifs with h hnum
  · norm_num
  · constructor <;> linarith
  · constructor <;> linarith

/-- The content term lies between 0 and 1. -/
theorem calculateContentSimilarity_bounds (n1 n2 : Node) :
    0 ≤ calculateContentSimilarity n1 n2 ∧
      calculateContentSimilarity n1 n2 ≤ 1 := by
  unfold calculateContentSimilarity
  split_ifs with h1 h2
  · norm_num
  · norm_num
  · push_neg at h2
    exact calculateTextPatternSimilarity_bounds _ _ (truthy_getD h2.1)
      (truthy_getD h2.2)

/-- C6: the overall similarity is the weighted sum of the structural,
layout, style and content sub-scores with the fixed weights 0.6, 0.2,
0.1 and 0.1, and (for non-negative node dimensions, as the data model
requires) the result lies in the closed interval from 0 to 1. -/
theorem C6_weighted_sum_and_range (n1 n2 : Node)
    (hw1 : 0 ≤ n1.width) (hh1 : 0 ≤ n1.height)
    (hw2 : 0 ≤ n2.width) (hh2 : 0 ≤ n2.height) :
    calculateSimilarity specConfig n1 n2 =
      0.6 * calculateStructuralSimilarity n1 n2 +
        0.2 * calculateLayoutSimilarity n1 n2 +
        0.1 * calculateStyleSimilarity n1 n2 +
        0.1 * calculateContentSimilarity n1 n2 ∧
    0 ≤ calculateSimilarity specConfig n1 n2 ∧
    calculateSimilarity specConfig n1 n2 ≤ 1 := by
  have hS := calculateStructuralSimilarity_bounds n1 n2
  have hT := calculateStyleSimilarity_bounds n1 n2
  have hL := calculateLayoutSimilarity_bounds n1 n2 hw1 hh1 hw2 hh2
  have hC := calculateContentSimilarity_bounds n1 n2
  simp only [calculateSimilarity, specConfig]
  refine ⟨by ring, ?_, ?_⟩
  · nlinarith [hS.1, hT.1, hL.1, hC.1]
  · nlinarith [hS.2, hT.2, hL.2, hC.2, hS.1, hT.1, hL.1, hC.1]

/-- Concrete instantiation of the C6 range guarantee on two buttons. -/
theorem C6_witness :
    0 ≤ calculateSimilarity specConfig btnEx1 btnEx2 ∧
    calculateSimilarity specConfig btnEx1 btnEx2 ≤ 1 :=
  ⟨(C6_weighted_sum_and_range btnEx1 btnEx2
      (by norm_num [btnEx1, mkA, Node.width, Node.attrs])
      (by norm_num [btnEx1, mkA, Node.height, Node.attrs])
      (by norm_num [btnEx2, mkA, Node.width, Node.attrs])
      (by norm_num [btnEx2, mkA, Node.height, Node.attrs])).2.1,
   (C6_weighted_sum_and_range btnEx1 btnEx2
      (by norm_num [btnEx1, mkA, Node.width, Node.attrs])
      (by norm_num [btnEx1, mkA, Node.height, Node.attrs])
      (by norm_num [btnEx2, mkA, Node.width, Node.attrs])
      (by norm_num [btnEx2, mkA, Node.height, Node.attrs])).2.2⟩
